import Mathlib

/-!
Verification of the Codopraxis problem compiler and sandbox executor.

This file shallowly embeds the relevant parts of the repository:
  * `codequestions/spec_compiler.py` (YAML problem spec -> normalized IR),
  * `codequestions/compiler.py` (`compile_question`),
  * `sandbox/utils.py` (`_run_in_docker`, `run_submission`).

Python dictionaries are modelled as association lists of `(String, Yaml)`
pairs (insertion order preserved, lookup is first match); Python `None` is
`Yaml.null`; fallible code returns `Except SpecError`.
-/

/-- A parsed YAML/JSON value, as produced by `yaml.safe_load`.  Mappings keep
insertion order, mirroring Python dicts. -/
inductive Yaml where
  | null
  | bool (b : Bool)
  | int (n : Int)
  | float (q : Rat)
  | str (s : String)
  | list (xs : List Yaml)
  | map (kvs : List (String × Yaml))

/-- First-match lookup in a mapping, mirroring Python dict indexing/`get`
(absent key gives `none`, i.e. Python `None` from `.get`). -/
def mget (m : List (String × Yaml)) (k : String) : Option Yaml :=
  match m with
  | [] => none
  | (k2, v) :: rest => if k2 = k then some v else mget rest k

/-- Python `d.get(k)` seen as a value: an absent key is Python `None`. -/
def getY (m : List (String × Yaml)) (k : String) : Yaml :=
  (mget m k).getD .null

/-- Python truthiness of a value. -/
def truthy : Yaml → Bool
  | .null => false
  | .bool b => b
  | .int n => n != 0
  | .float q => q != 0
  | .str s => !s.isEmpty
  | .list xs => !xs.isEmpty
  | .map m => !m.isEmpty

/-- Python `a or b` on optional values (`None` is falsy; the second operand is
returned unchanged when the first is falsy). -/
def pyOr (a b : Option Yaml) : Option Yaml :=
  match a with
  | none => b
  | some v => if truthy v then some v else b

/-- Embeds `SpecError(message, path)` from `spec_compiler.py`. -/
structure SpecError where
  message : String
  path : Option String
deriving DecidableEq, Repr

/-- Fallible spec-compiler computations: Python exception flow. -/
abbrev SpecM (α : Type) := Except SpecError α

/-- Python `s.replace("\r\n", "\n")` on the character list (leftmost,
non-overlapping). -/
def replaceCRLF : List Char → List Char
  | [] => []
  | [c] => [c]
  | c :: d :: rest =>
    if c = '\r' ∧ d = '\n' then '\n' :: replaceCRLF rest
    else c :: replaceCRLF (d :: rest)

/-- Python `s.replace("\r", "\n")` on the character list. -/
def replaceCR : List Char → List Char
  | [] => []
  | c :: rest => if c = '\r' then '\n' :: replaceCR rest else c :: replaceCR rest

/-- Embeds `_normalize_newlines`: `s.replace("\r\n", "\n").replace("\r", "\n")`. -/
def _normalize_newlines (s : String) : String :=
  String.mk (replaceCR (replaceCRLF s.data))

/-- The identifier regex `^[A-Za-z_][A-Za-z0-9_]*$` (ASCII classes). -/
def _is_ident (s : String) : Bool :=
  match s.data with
  | [] => false
  | c :: cs => (c.isAlpha || c == '_') && cs.all (fun d => d.isAlphanum || d == '_')

/-- Embeds `_as_str`: value must be a Python string. -/
def _as_str (val : Yaml) (path : String) : SpecM String :=
  match val with
  | .str s => pure s
  | _ => throw ⟨"must be a string", some path⟩

/-- Embeds `_as_identifier`: a string matching the identifier regex. -/
def _as_identifier (val : Yaml) (path : String) : SpecM String := do
  let s ← _as_str val path
  if _is_ident s then
    pure s
  else
    throw ⟨"must be a valid identifier (letters, digits, underscore; cannot start with digit)", some path⟩

/-- The allowed primitive type labels of `_as_type`. -/
def allowedTypes : List String := ["integer", "float", "string", "bool", "any", "void"]

/-- Embeds `_as_type`: one of the allowed primitive type labels. -/
def _as_type (val : Yaml) (path : String) : SpecM String := do
  let s ← _as_str val path
  if s ∈ allowedTypes then
    pure s
  else
    throw ⟨"type must be one of [any, bool, float, integer, string, void]", some path⟩

/-- Insertion of a string into a lexicographically sorted list. -/
def insertStr (a : String) : List String → List String
  | [] => [a]
  | b :: rest => if a < b then a :: b :: rest else b :: insertStr a rest

/-- Insertion sort on strings, modelling Python `sorted`. -/
def sortStrings : List String → List String
  | [] => []
  | a :: rest => insertStr a (sortStrings rest)

/-- Keep-first deduplication, modelling the conversion of a list to a Python
set before sorting. -/
def dedupKeep : List String → List String
  | [] => []
  | a :: rest => a :: (dedupKeep rest).filter (fun b => b ≠ a)

/-- Python `", ".join(xs)`. -/
def joinSep (sep : String) : List String → String
  | [] => ""
  | [s] => s
  | s :: rest => s ++ sep ++ joinSep sep rest

/-- Rendering of a sorted name list inside an error message. -/
def fmtNames (l : List String) : String :=
  "[" ++ joinSep ", " l ++ "]"

/-- Embeds `_check_exact_keys`: the key set of `mapping` must equal `expected`
(given as the declared argument-name list); otherwise a `SpecError` listing
the sorted missing and unexpected names is raised. -/
def _check_exact_keys (mapping : List (String × Yaml)) (expected : List String)
    (path : String) : SpecM Unit :=
  let actual := mapping.map Prod.fst
  let missing := sortStrings (dedupKeep (expected.filter (fun k => !actual.contains k)))
  let extra := sortStrings (dedupKeep (actual.filter (fun k => !expected.contains k)))
  if missing.isEmpty && extra.isEmpty then
    pure ()
  else
    let parts := (if missing.isEmpty then [] else ["missing: " ++ fmtNames missing])
      ++ (if extra.isEmpty then [] else ["unexpected: " ++ fmtNames extra])
    throw ⟨joinSep "; " parts, some path⟩

/-- Embeds `_reject_unknown_keys`: each key must be allowed; the first offending key
is reported at `path.key`. -/
def _reject_unknown_keys (obj : List (String × Yaml)) (allowed : List String)
    (path : String) : SpecM Unit :=
  match obj with
  | [] => pure ()
  | (k, _) :: rest =>
    if k ∈ allowed then _reject_unknown_keys rest allowed path
    else throw ⟨"Unknown key " ++ k, some (path ++ "." ++ k)⟩

/-- Embeds `_reject_unknown_top_level_keys`: like `_reject_unknown_keys` but the
path is the key itself. -/
def _reject_unknown_top_level_keys (raw : List (String × Yaml)) (allowed : List String) :
    SpecM Unit :=
  match raw with
  | [] => pure ()
  | (k, _) :: rest =>
    if k ∈ allowed then _reject_unknown_top_level_keys rest allowed
    else throw ⟨"Unknown top-level key " ++ k, some k⟩

/-- Embeds `_require_tests_list`: `raw["tests"]` must be a list. -/
def _require_tests_list (raw : List (String × Yaml)) : SpecM (List Yaml) :=
  match getY raw "tests" with
  | .list tests => pure tests
  | _ => throw ⟨"tests must be a list", some "tests"⟩

/-- Embeds `_require_non_empty`. -/
def _require_non_empty {α : Type} (seq : List α) (path : String) : SpecM Unit :=
  if seq.isEmpty then throw ⟨"must contain at least one item", some path⟩ else pure ()

/-- Embeds `_require_name`: the test mapping must carry a `name` key holding an
identifier. -/
def _require_name (obj : List (String × Yaml)) (path : String) : SpecM String :=
  match mget obj "name" with
  | none => throw ⟨"Missing required key name", some (path ++ ".name")⟩
  | some v => _as_identifier v (path ++ ".name")

/-- Embeds `_require_type`: top-level `type` must be present and one of the three
discriminators. -/
def _require_type (raw : List (String × Yaml)) : SpecM Unit :=
  match mget raw "type" with
  | none => throw ⟨"Missing required key", some "type"⟩
  | some (.str "standardIo") => pure ()
  | some (.str "function") => pure ()
  | some (.str "oop") => pure ()
  | some _ => throw ⟨"Must be one of: standardIo, function, oop", some "type"⟩

/-- Python `s.strip()` restricted to what `_require_desc` needs: whether the
string has a non-whitespace character. -/
def hasNonWs (s : String) : Bool :=
  s.data.any (fun c => !c.isWhitespace)

/-- Embeds `_require_desc`: `description` must be a non-empty (after strip) string. -/
def _require_desc (raw : List (String × Yaml)) : SpecM Unit :=
  match getY raw "description" with
  | .str s => if hasNonWs s then pure () else
      throw ⟨"description must be a non-empty string", some "description"⟩
  | _ => throw ⟨"description must be a non-empty string", some "description"⟩

/-- A canonical exception record `{type, message?}`. -/
structure ExceptionRec where
  type : String
  message : Option String
deriving DecidableEq, Repr

/-- Embeds `_normalize_exception`: a bare string `E` means `{type: E}`; a mapping
must carry `type` and may carry `message`. -/
def _normalize_exception (val : Yaml) (path : String) : SpecM ExceptionRec :=
  match val with
  | .str s => pure ⟨s, none⟩
  | .map m => do
    match mget m "type" with
    | none => throw ⟨"exception mapping must include type", some path⟩
    | some tv =>
      let etype ← _as_str tv (path ++ ".type")
      let msg ← match mget m "message" with
        | none => pure (none : Option String)
        | some mv => do
          let s ← _as_str mv (path ++ ".message")
          pure (some s)
      _reject_unknown_keys m ["type", "message"] path
      pure ⟨etype, msg⟩
  | _ => throw ⟨"exception must be a string or mapping", some path⟩

/-- One normalized standardIo test `{name, stdin, stdout}`. -/
structure StdIoTest where
  name : String
  stdin : String
  stdout : String
deriving Repr

/-- A declared argument `{name, type}` of a function or method signature. -/
structure ArgSig where
  name : String
  type : String
deriving Repr

/-- The compiled `function` signature; `returns` is `none` when the YAML held
an explicit `returns: null`. -/
structure FunctionSig where
  name : String
  args : List ArgSig
  returns : Option String
deriving Repr

/-- Embeds `expected` value or canonical `exception` record: each test or call step
carries exactly one of the two. -/
inductive Outcome where
  | expected (v : Yaml)
  | exception (e : ExceptionRec)

/-- One normalized function test `{name, args (positional), expected|exception}`. -/
structure FunctionTest where
  name : String
  args : List Yaml
  outcome : Outcome

/-- A compiled method signature of an oop class. -/
structure MethodSig where
  name : String
  args : List ArgSig
  returns : Option String
deriving Repr

/-- The compiled `class` signature. -/
structure ClassSig where
  name : String
  methods : List MethodSig
deriving Repr

/-- A setup step `{op: "create", class, as}` (`cls`/`asVar` stand for the
reserved source key names `class`/`as`). -/
structure SetupStep where
  cls : String
  asVar : String
deriving Repr

/-- A call step `{op: "call", on, method, args, expected|exception}`
(`onVar` stands for the reserved source key name `on`). -/
structure CallStep where
  onVar : String
  method : String
  args : List Yaml
  outcome : Outcome

/-- One normalized oop test `{name, setup, steps}`. -/
structure OopTest where
  name : String
  setup : List SetupStep
  steps : List CallStep

/-- The compiled spec (IR) returned by `compile_yaml_to_spec`, as a tagged
union over the three `type` shapes. -/
inductive Compiled where
  | standardIo (schema_version : Int) (description : String) (tests : List StdIoTest)
  | function (schema_version : Int) (description : String) (fn : FunctionSig)
      (tests : List FunctionTest)
  | oop (schema_version : Int) (description : String) (cls : ClassSig)
      (tests : List OopTest)

/-- Python `s.endswith("\n")`. -/
def endsWithNL (s : String) : Bool :=
  s.data.getLast? == some '\n'

/-- The `tests[i]` path string. -/
def testPath (i : Nat) : String :=
  "tests[" ++ toString i ++ "]"

/-- The loop body of `_normalize_standard_io_tests` for the test at index
`i`: require a mapping with `name` and `stdout`, default `stdin` to `""`,
normalize newlines, and force a trailing newline on `stdout`. -/
def _std_io_test (t : Yaml) (i : Nat) : SpecM StdIoTest := do
  let path := testPath i
  match t with
  | .map m => do
    let name ← _require_name m path
    match mget m "stdout" with
    | none => throw ⟨"Missing required key stdout", some (path ++ ".stdout")⟩
    | some stdout => do
      let stdin := (mget m "stdin").getD (.str "")
      let stdin_s ← _as_str stdin (path ++ ".stdin")
      let stdout_s ← _as_str stdout (path ++ ".stdout")
      let stdin_n := _normalize_newlines stdin_s
      let stdout_n := _normalize_newlines stdout_s
      let stdout_f := if endsWithNL stdout_n then stdout_n else stdout_n ++ "\n"
      _reject_unknown_keys m ["name", "stdin", "stdout"] path
      pure ⟨name, stdin_n, stdout_f⟩
  | _ => throw ⟨"Each test must be a mapping", some path⟩

/-- The indexed loop of `_normalize_standard_io_tests`. -/
def _std_io_tests_loop : List Yaml → Nat → SpecM (List StdIoTest)
  | [], _ => pure []
  | t :: ts, i => do
    let e ← _std_io_test t i
    let rest ← _std_io_tests_loop ts (i + 1)
    pure (e :: rest)

/-- Embeds `_normalize_standard_io_tests`. -/
def _normalize_standard_io_tests (raw : List (String × Yaml)) : SpecM (List StdIoTest) := do
  let tests ← _require_tests_list raw
  let norm ← _std_io_tests_loop tests 0
  _require_non_empty norm "tests"
  pure norm

/-- The `returns` handling shared by the function and method signature
normalizers: `fn.get("returns", "any")`, validated by `_as_type` unless the
value is Python `None` (an explicit `returns: null`). -/
def _returns_field (m : List (String × Yaml)) (path : String) : SpecM (Option String) :=
  match mget m "returns" with
  | none => do
    let r ← _as_type (.str "any") path
    pure (some r)
  | some .null => pure none
  | some v => do
    let r ← _as_type v path
    pure (some r)

/-- The argument-list loop shared by `_normalize_function_signature`
(`pathPre = "function.arguments"`) and `_normalize_class_signature`
(`pathPre = mpath ++ ".arguments"`): each entry is a mapping with an
identifier `name` and a `type` defaulting to `"any"`. -/
def _sig_args_loop (pathPre : String) : List Yaml → Nat → SpecM (List ArgSig)
  | [], _ => pure []
  | a :: rest, i => do
    let apath := pathPre ++ "[" ++ toString i ++ "]"
    match a with
    | .map am => do
      let aname ← _as_identifier (getY am "name") (apath ++ ".name")
      let atype ← _as_type ((mget am "type").getD (.str "any")) (apath ++ ".type")
      _reject_unknown_keys am ["name", "type"] apath
      let tail ← _sig_args_loop pathPre rest (i + 1)
      pure (⟨aname, atype⟩ :: tail)
    | _ => throw ⟨"Each argument must be a mapping", some apath⟩

/-- The body of `_normalize_function_signature` once `raw["function"]` is
known to be a mapping `fn`: either key spelling `arguments`/`args` is
accepted through Python `or` (so an empty — falsy — `arguments` list falls
through to `args`). -/
def _fn_sig_of_map (fn : List (String × Yaml)) : SpecM FunctionSig := do
  let name ← _as_identifier (getY fn "name") "function.name"
  match pyOr (mget fn "arguments") (mget fn "args") with
  | some (.list argl) => do
    let norm_args ← _sig_args_loop "function.arguments" argl 0
    let returns ← _returns_field fn "function.returns"
    _reject_unknown_keys fn ["name", "arguments", "args", "returns"] "function"
    pure ⟨name, norm_args, returns⟩
  | _ => throw ⟨"function.arguments must be a list", some "function.arguments"⟩

/-- Embeds `_normalize_function_signature`. -/
def _normalize_function_signature (raw : List (String × Yaml)) : SpecM FunctionSig :=
  match getY raw "function" with
  | .map fn => _fn_sig_of_map fn
  | _ => throw ⟨"Missing required mapping", some "function"⟩

/-- The list comprehension `[mapping[k] for k in arg_order]`: positional
args in declared order.  (An absent key would be a Python `KeyError`;
`_check_exact_keys` has made that unreachable at every call site.) -/
def _positional_args : List String → List (String × Yaml) → String → SpecM (List Yaml)
  | [], _, _ => pure []
  | k :: ks, mapping, path =>
    match mget mapping k with
    | some v => do
      let rest ← _positional_args ks mapping path
      pure (v :: rest)
    | none => throw ⟨"KeyError: " ++ k, some path⟩

/-- The `expected`/`exception` exactly-one rule shared by function tests and
oop call steps, returning the canonical outcome. -/
def _outcome_of (m : List (String × Yaml)) (path : String) : SpecM Outcome := do
  let has_expected := (mget m "expected").isSome
  let has_exception := (mget m "exception").isSome
  if has_expected = has_exception then
    throw ⟨"Provide exactly one of expected or exception", some path⟩
  else if has_expected then
    pure (.expected (getY m "expected"))
  else do
    let e ← _normalize_exception (getY m "exception") (path ++ ".exception")
    pure (.exception e)

/-- The loop body of `_normalize_function_tests` for the test at index `i`. -/
def _fn_test (arg_order : List String) (t : Yaml) (i : Nat) : SpecM FunctionTest := do
  let path := testPath i
  match t with
  | .map m => do
    let name ← _require_name m path
    match mget m "args" with
    | some (.map mapping) => do
      _check_exact_keys mapping arg_order (path ++ ".args")
      let pos_args ← _positional_args arg_order mapping (path ++ ".args")
      let outcome ← _outcome_of m path
      _reject_unknown_keys m ["name", "args", "expected", "exception"] path
      pure ⟨name, pos_args, outcome⟩
    | _ => throw ⟨"args must be a mapping keyed by argument names", some (path ++ ".args")⟩
  | _ => throw ⟨"Each test must be a mapping", some path⟩

/-- The indexed loop of `_normalize_function_tests`. -/
def _fn_tests_loop (arg_order : List String) : List Yaml → Nat → SpecM (List FunctionTest)
  | [], _ => pure []
  | t :: ts, i => do
    let e ← _fn_test arg_order t i
    let rest ← _fn_tests_loop arg_order ts (i + 1)
    pure (e :: rest)

/-- Embeds `_normalize_function_tests`. -/
def _normalize_function_tests (raw : List (String × Yaml)) (fn : FunctionSig) :
    SpecM (List FunctionTest) := do
  let tests ← _require_tests_list raw
  let norm ← _fn_tests_loop (fn.args.map (fun a => a.name)) tests 0
  _require_non_empty norm "tests"
  pure norm

/-- The method loop of `_normalize_class_signature`: note the logical
constructor alias `init` is rewritten to `__init__` here, at
compile/normalization time. -/
def _methods_loop : List Yaml → Nat → SpecM (List MethodSig)
  | [], _ => pure []
  | m :: rest, i => do
    let mpath := "class.methods[" ++ toString i ++ "]"
    match m with
    | .map mm => do
      let mname_raw ← _as_identifier (getY mm "name") (mpath ++ ".name")
      let mname := if mname_raw = "init" then "__init__" else mname_raw
      match pyOr (pyOr (mget mm "arguments") (mget mm "args")) (some (.list [])) with
      | some (.list margl) => do
        let norm_margs ← _sig_args_loop (mpath ++ ".arguments") margl 0
        let returns ← _returns_field mm (mpath ++ ".returns")
        _reject_unknown_keys mm ["name", "arguments", "args", "returns"] mpath
        let tail ← _methods_loop rest (i + 1)
        pure (⟨mname, norm_margs, returns⟩ :: tail)
      | _ => throw ⟨"method arguments must be a list", some (mpath ++ ".arguments")⟩
    | _ => throw ⟨"Each method must be a mapping", some mpath⟩

/-- Embeds `_normalize_class_signature`. -/
def _normalize_class_signature (raw : List (String × Yaml)) : SpecM ClassSig :=
  match getY raw "class" with
  | .map c => do
    let name ← _as_identifier (getY c "name") "class.name"
    match mget c "methods" with
    | some (.list ml) =>
      if ml.isEmpty then
        throw ⟨"class.methods must be a non-empty list", some "class.methods"⟩
      else do
        let norm_methods ← _methods_loop ml 0
        _reject_unknown_keys c ["name", "methods"] "class"
        pure ⟨name, norm_methods⟩
    | _ => throw ⟨"class.methods must be a non-empty list", some "class.methods"⟩
  | _ => throw ⟨"Missing required mapping", some "class"⟩

/-- Embeds `_get_method_sig`: first declared method with the given name. -/
def _get_method_sig (klass : ClassSig) (method_name : String) : SpecM MethodSig :=
  match klass.methods.find? (fun m2 => m2.name == method_name) with
  | some m2 => pure m2
  | none => throw ⟨"Method " ++ method_name ++ " not found", some "class.methods"⟩

/-- The setup loop of `_normalize_oop_tests`: only `create` entries are
supported; returns the normalized steps together with the accumulated set of
created variable names. -/
def _setup_loop (path : String) : List Yaml → Nat → SpecM (List SetupStep × List String)
  | [], _ => pure ([], [])
  | s :: rest, j => do
    let spath := path ++ ".setup[" ++ toString j ++ "]"
    match s with
    | .map sm => do
      match getY sm "action" with
      | .str "create" => do
        let cls ← _as_identifier (getY sm "class") (spath ++ ".class")
        let var ← _as_identifier (getY sm "var") (spath ++ ".var")
        _reject_unknown_keys sm ["action", "class", "var"] spath
        let (tail, vars) ← _setup_loop path rest (j + 1)
        pure (⟨cls, var⟩ :: tail, var :: vars)
      | _ => throw ⟨"Only create is supported in setup", some spath⟩
    | _ => throw ⟨"Each setup entry must be a mapping", some spath⟩

/-- The call-step loop of `_normalize_oop_tests`: `var` must be created in
setup, `method` must be declared, args are positionalized against the
method signature. -/
def _steps_loop (klass : ClassSig) (created_vars : List String) (path : String) :
    List Yaml → Nat → SpecM (List CallStep)
  | [], _ => pure []
  | a :: rest, k => do
    let apath := path ++ ".actions[" ++ toString k ++ "]"
    match a with
    | .map am => do
      match getY am "action" with
      | .str "call" => do
        let var ← _as_identifier (getY am "var") (apath ++ ".var")
        if var ∈ created_vars then do
          let method ← _as_identifier (getY am "method") (apath ++ ".method")
          if method ∈ klass.methods.map (fun m2 => m2.name) then do
            match pyOr (mget am "args") (some (.map [])) with
            | some (.map args_map) => do
              let method_sig ← _get_method_sig klass method
              let expected_arg_names := method_sig.args.map (fun x => x.name)
              _check_exact_keys args_map expected_arg_names (apath ++ ".args")
              let pos_args ← _positional_args expected_arg_names args_map (apath ++ ".args")
              let outcome ← _outcome_of am apath
              _reject_unknown_keys am ["action", "var", "method", "args", "expected", "exception"] apath
              let tail ← _steps_loop klass created_vars path rest (k + 1)
              pure (⟨var, method, pos_args, outcome⟩ :: tail)
            | _ => throw ⟨"args must be a mapping", some (apath ++ ".args")⟩
          else
            throw ⟨"Method " ++ method ++ " not declared in class.methods", some (apath ++ ".method")⟩
        else
          throw ⟨"Unknown variable " ++ var ++ " (not created in setup)", some (apath ++ ".var")⟩
      | _ => throw ⟨"Only call actions are supported", some apath⟩
    | _ => throw ⟨"Each action/step must be a mapping", some apath⟩

/-- The loop body of `_normalize_oop_tests` for the test at index `i`. -/
def _oop_test (klass : ClassSig) (t : Yaml) (i : Nat) : SpecM OopTest := do
  let path := testPath i
  match t with
  | .map m => do
    let name ← _require_name m path
    match (mget m "setup").getD (.list []) with
    | .list setup_raw =>
      match pyOr (mget m "actions") (mget m "steps") with
      | some (.list steps_raw) => do
        let (setup, created_vars) ← _setup_loop path setup_raw 0
        let steps ← _steps_loop klass created_vars path steps_raw 0
        _reject_unknown_keys m ["name", "setup", "actions", "steps"] path
        pure ⟨name, setup, steps⟩
      | _ => throw ⟨"actions/steps must be a list", some (path ++ ".actions")⟩
    | _ => throw ⟨"setup must be a list", some (path ++ ".setup")⟩
  | _ => throw ⟨"Each test must be a mapping", some path⟩

/-- The indexed loop of `_normalize_oop_tests`. -/
def _oop_tests_loop (klass : ClassSig) : List Yaml → Nat → SpecM (List OopTest)
  | [], _ => pure []
  | t :: ts, i => do
    let e ← _oop_test klass t i
    let rest ← _oop_tests_loop klass ts (i + 1)
    pure (e :: rest)

/-- Embeds `_normalize_oop_tests`. -/
def _normalize_oop_tests (raw : List (String × Yaml)) (klass : ClassSig) :
    SpecM (List OopTest) := do
  let tests ← _require_tests_list raw
  let norm ← _oop_tests_loop klass tests 0
  _require_non_empty norm "tests"
  pure norm

/-- The top-level key whitelist of `compile_yaml_to_spec` (the same set for
all three `type`s). -/
def topLevelAllowed : List String := ["type", "description", "tests", "function", "class"]

/-- The `if t == ... / elif ... / else` dispatch of `compile_yaml_to_spec`
that builds the `compiled` value per type. -/
def compile_branch (raw : List (String × Yaml)) (schema_version : Int) :
    SpecM Compiled :=
  match getY raw "type" with
  | .str "standardIo" => do
    let tests ← _normalize_standard_io_tests raw
    let desc ← _as_str (getY raw "description") "description"
    pure (Compiled.standardIo schema_version desc tests)
  | .str "function" => do
    let fn ← _normalize_function_signature raw
    let tests ← _normalize_function_tests raw fn
    let desc ← _as_str (getY raw "description") "description"
    pure (Compiled.function schema_version desc fn tests)
  | .str "oop" => do
    let klass ← _normalize_class_signature raw
    let tests ← _normalize_oop_tests raw klass
    let desc ← _as_str (getY raw "description") "description"
    pure (Compiled.oop schema_version desc klass tests)
  | _ => throw ⟨"Unsupported type; expected one of: standardIo, function, oop", some "type"⟩

/-- Embeds `compile_yaml_to_spec`, starting from the parsed single-document mapping
(the YAML text parsing itself is done by the external PyYAML library in
`_parse_single_yaml`): validates top-level structure, normalizes per type
via `compile_branch`, and rejects unknown top-level keys at the end. -/
def compile_yaml_to_spec (raw : List (String × Yaml)) (schema_version : Int) :
    SpecM Compiled := do
  _require_type raw
  _require_desc raw
  let compiled ← compile_branch raw schema_version
  _reject_unknown_top_level_keys raw topLevelAllowed
  pure compiled

/-- Python `case.get(k, dflt) or dflt` for a falsy default `dflt`
(`compiler.py` case normalizers). -/
def pyGetOr (m : List (String × Yaml)) (k : String) (dflt : Yaml) : Yaml :=
  let v := (mget m k).getD dflt
  if truthy v then v else dflt

/-- A test-case payload normalized by `compiler.normalize_case`, per style. -/
inductive NormalizedCase where
  | script (inp output : Yaml)
  | function (args output expected : Yaml)
  | oop (setup calls expected output : Yaml)

/-- Embeds `compiler.normalize_script`: requires a non-`None` `output`. -/
def normalize_script (case : List (String × Yaml)) : Except String NormalizedCase :=
  match mget case "output" with
  | none => throw "script case requires output"
  | some .null => throw "script case requires output"
  | some output => pure (.script (pyGetOr case "input" (.str "")) output)

/-- Embeds `compiler.normalize_function`. -/
def normalize_function (case : List (String × Yaml)) : Except String NormalizedCase :=
  pure (.function (pyGetOr case "args" (.list [])) (pyGetOr case "output" (.str ""))
    ((mget case "expected").getD .null))

/-- Embeds `compiler.normalize_oop`. -/
def normalize_oop (case : List (String × Yaml)) : Except String NormalizedCase :=
  pure (.oop (pyGetOr case "setup" (.list [])) (pyGetOr case "calls" (.list []))
    (pyGetOr case "expected" (.map [])) (pyGetOr case "output" (.str "")))

/-- Embeds `compiler.normalize_case`: dispatch on the test style. -/
def normalize_case (style : String) (payload : List (String × Yaml)) :
    Except String NormalizedCase :=
  match style with
  | "script" => normalize_script payload
  | "function" => normalize_function payload
  | "oop" => normalize_oop payload
  | _ => throw ("Unknown test_style: " ++ style)

/-- The `question` model attributes read by `compile_question`.  A field
that is absent on the model, `None`, or `""` never overrides, so all three
are modelled as `none` (the override filter `val not in (None, "")`). -/
structure Question where
  test_style : String
  test_cases : List (List (String × Yaml))
  timeout_seconds : Option Rat
  memory_limit_mb : Option Yaml
  cpus : Option Yaml
  docker_image : Option Yaml
  stop_on_timeout : Option Yaml
  overall_timeout_seconds : Option Rat
  compiled_version : Option Nat

/-- The compiled-spec snapshot persisted by `compile_question` (numeric
timeouts as rationals; the float conversions of the source are the identity
in this model). -/
structure SpecOut where
  test_style : String
  test_cases : List NormalizedCase
  timeout_seconds : Rat
  overall_timeout_seconds : Rat
  memory_limit_mb : Yaml
  cpus : Yaml
  docker_image : Yaml
  stop_on_timeout : Yaml

/-- The override filter of `compile_question`: a model value replaces the
default only when the attribute exists and is not `None`/`""`. -/
def overrideVal (dflt : Yaml) : Option Yaml → Yaml
  | none => dflt
  | some .null => dflt
  | some (.str "") => dflt
  | some v => v

/-- The case-normalization loop of `compile_question`. -/
def _norm_cases_loop (style : String) : List (List (String × Yaml)) →
    Except String (List NormalizedCase)
  | [] => pure []
  | c :: rest => do
    let e ← normalize_case style c
    let tail ← _norm_cases_loop style rest
    pure (e :: tail)

/-- Embeds `compile_question`: normalizes the active test cases, applies
`SANDBOX_DEFAULTS` (`timeout_seconds = 2`, `overall_timeout_seconds = None`,
`memory = 128`, `cpus = 1`, image, `stop_on_timeout = True`), takes the
model timeout if present, fills `overall_timeout_seconds = 2 * timeout`
because the default is falsy, then lets explicit model fields override, and
finally bumps `compiled_version` unconditionally.  Returns the persisted
spec snapshot and the new `compiled_version`. -/
def compile_question (q : Question) : Except String (SpecOut × Nat) := do
  let normalized_cases ← _norm_cases_loop q.test_style q.test_cases
  if q.test_style = "script" ∨ q.test_style = "function" ∨ q.test_style = "oop" then
    let timeout : Rat := match q.timeout_seconds with
      | some t => t
      | none => 2
    let overall0 : Rat := timeout * 2
    let overall : Rat := match q.overall_timeout_seconds with
      | some v => v
      | none => overall0
    let spec : SpecOut := {
      test_style := q.test_style
      test_cases := normalized_cases
      timeout_seconds := timeout
      overall_timeout_seconds := overall
      memory_limit_mb := overrideVal (.int 128) q.memory_limit_mb
      cpus := overrideVal (.int 1) q.cpus
      docker_image := overrideVal (.str "python:3.12-slim") q.docker_image
      stop_on_timeout := overrideVal (.bool true) q.stop_on_timeout
    }
    pure (spec, q.compiled_version.getD 0 + 1)
  else
    throw ("Unknown test_style: " ++ q.test_style)

/-- The `docker run` argument list built by `_run_in_docker`
(`sandbox/utils.py` lines 31-45); `cpus` is rendered by `toString` in place
of Python `str`. -/
def _run_in_docker_cmd (workdir : String) (mem_mb : Nat) (cpus : Rat)
    (image : String) (name : String) : List String :=
  ["docker", "run", "--rm", "-i",
   "--name", name,
   "--network=none",
   "--cpus", toString cpus,
   "--memory=" ++ toString mem_mb ++ "m", "--memory-swap=" ++ toString mem_mb ++ "m",
   "--pids-limit", "64",
   "--read-only",
   "--cap-drop=ALL", "--security-opt", "no-new-privileges",
   "--tmpfs", "/tmp:rw,noexec,nosuid,nodev,size=64m",
   "-v", workdir ++ ":/workspace:ro",
   "-w", "/workspace",
   image,
   "python", "test_runner.py"]

/-- Contiguous-sublist relation used to state that a flag and its value
appear adjacently in a command line. -/
def consecutiveIn (pair cmd : List String) : Prop :=
  ∃ s t, s ++ pair ++ t = cmd

/-- The isolation contract of spec section 4.5, as a predicate on one
container launch (`cpus` is the launch's CPU quota): no network, read-only
root, the 64 MiB noexec/nosuid/nodev tmpfs, the workspace mounted
read-only, swap pinned equal to memory, CPU quota at most 1, process cap
64, all capabilities dropped with no-new-privileges, and `--rm`. -/
def isolationContract (workdir : String) (mem_mb : Nat) (cpus : Rat)
    (cmd : List String) : Prop :=
  "--network=none" ∈ cmd ∧
  "--read-only" ∈ cmd ∧
  consecutiveIn ["--tmpfs", "/tmp:rw,noexec,nosuid,nodev,size=64m"] cmd ∧
  (workdir ++ ":/workspace:ro") ∈ cmd ∧
  ("--memory=" ++ toString mem_mb ++ "m") ∈ cmd ∧
  ("--memory-swap=" ++ toString mem_mb ++ "m") ∈ cmd ∧
  consecutiveIn ["--cpus", toString cpus] cmd ∧
  cpus ≤ 1 ∧
  consecutiveIn ["--pids-limit", "64"] cmd ∧
  "--cap-drop=ALL" ∈ cmd ∧
  consecutiveIn ["--security-opt", "no-new-privileges"] cmd ∧
  "--rm" ∈ cmd

/-- How the `docker run` child process ends from the host's point of view
in `_run_in_docker`. -/
inductive DockerOutcome where
  | completed
  | clientTimeout
deriving DecidableEq

/-- The control-flow scenarios of `run_submission`: an unsupported language
returns before any staging; an exception inside the `try` (e.g. no
registered generator) is caught after the student file was written; or the
docker phase runs and either completes or hits `subprocess.TimeoutExpired`. -/
inductive RunScenario where
  | badLanguage
  | generatorFails
  | runs (d : DockerOutcome)
deriving DecidableEq

/-- Externally visible events of one `run_submission` call. -/
inductive Ev where
  | createWorkspace
  | writeFile (name : String)
  | dockerRun (d : DockerOutcome)
  | removeWorkspace
  | forceRemoveContainer
deriving DecidableEq

/-- The event trace of `run_submission` per scenario: the
`tempfile.TemporaryDirectory` context manager removes the workspace on
every path out of the `with` block (the `try/except` is inside it), and no
path ever issues a container force-remove — `_run_in_docker` merely
catches `subprocess.TimeoutExpired` and fabricates a `returncode=124`
result. -/
def run_submission_trace : RunScenario → List Ev
  | .badLanguage => []
  | .generatorFails => [.createWorkspace, .writeFile "solution.py", .removeWorkspace]
  | .runs d => [.createWorkspace, .writeFile "solution.py", .writeFile "test_runner.py",
      .dockerRun d, .removeWorkspace]

/-- Whether the per-submission workspace directory still exists after the
trace. -/
def workspaceAfter (evs : List Ev) : Bool :=
  evs.foldl (fun st e => match e with
    | .createWorkspace => true
    | .removeWorkspace => false
    | _ => st) false

/-- Whether the launched container still exists after the trace, under
Docker semantics: `--rm` auto-removes the container when the container
process exits (`DockerOutcome.completed`), but killing the docker CLI
client on a host timeout leaves the daemon-side container running; only an
explicit force-remove would reap it. -/
def containerAfter (evs : List Ev) : Bool :=
  evs.foldl (fun st e => match e with
    | .dockerRun .completed => false
    | .dockerRun .clientTimeout => true
    | .forceRemoveContainer => false
    | _ => st) false

/-- A question with a model timeout of 3 and no explicit overall override,
for the C5 witness. -/
def qC5 : Question :=
  ⟨"function", [], some 3, none, none, none, none, none, none⟩

/-- The compiled spec `compile_question` produces for `qC5`. -/
def specC5 : SpecOut :=
  { test_style := "function"
    test_cases := []
    timeout_seconds := 3
    overall_timeout_seconds := 3 * 2
    memory_limit_mb := .int 128
    cpus := .int 1
    docker_image := .str "python:3.12-slim"
    stop_on_timeout := .bool true }

/-- A question before its first compile, for the C2 counterexample. -/
def qC2a : Question :=
  ⟨"function", [], none, none, none, none, none, none, none⟩

/-- The same question after the first compile stored `compiled_version = 1`
(no other field changed, so the compiled content is unchanged). -/
def qC2b : Question :=
  ⟨"function", [], none, none, none, none, none, none, some 1⟩

/-- A concrete standardIo document (the repository's own
`test_standard_io_example`, post-parse). -/
def rawC7 : List (String × Yaml) :=
  [("type", .str "standardIo"),
   ("description", .str "Add two numbers"),
   ("tests", .list [.map [("name", .str "case1"), ("stdin", .str "2\n3\n"),
     ("stdout", .str "5")]])]

/-- Means `small` occurs as a contiguous substring of `big` (stated on the
character lists). -/
def substring_of (small big : String) : Prop :=
  ∃ s t, s ++ small.data ++ t = big.data

/-- The repository's own function example (`test_function_example`),
post-parse. -/
def rawC6f : List (String × Yaml) :=
  [("type", .str "function"),
   ("description", .str "factorial"),
   ("function", .map [("name", .str "factorial"),
     ("arguments", .list [.map [("name", .str "n"), ("type", .str "integer")]])]),
   ("tests", .list [.map [("name", .str "base"), ("args", .map [("n", .int 0)]),
     ("expected", .int 1)]])]

/-- An oop document with a single zero-arg method and one call step. -/
def rawC6o : List (String × Yaml) :=
  [("type", .str "oop"),
   ("description", .str "Counter"),
   ("class", .map [("name", .str "Counter"),
     ("methods", .list [.map [("name", .str "get")]])]),
   ("tests", .list [.map [("name", .str "t1"),
     ("setup", .list [.map [("action", .str "create"), ("class", .str "Counter"),
       ("var", .str "c")]]),
     ("actions", .list [.map [("action", .str "call"), ("var", .str "c"),
       ("method", .str "get"), ("expected", .int 0)]])]])]

/-- The repository's own oop example (`test_oop_example`), post-parse, with
an `init` method declared. -/
def rawC3 : List (String × Yaml) :=
  [("type", .str "oop"),
   ("description", .str "ShoppingCart"),
   ("class", .map [("name", .str "ShoppingCart"),
     ("methods", .list [.map [("name", .str "init")], .map [("name", .str "total")]])]),
   ("tests", .list [.map [("name", .str "emptyCart"),
     ("setup", .list [.map [("action", .str "create"), ("class", .str "ShoppingCart"),
       ("var", .str "cart")]]),
     ("actions", .list [.map [("action", .str "call"), ("var", .str "cart"),
       ("method", .str "total"), ("expected", .int 0)]])]])]

/-- The method-name list of a compiled oop IR. -/
def compiledMethodNames : Compiled → List String
  | .oop _ _ cls _ => cls.methods.map (fun m => m.name)
  | _ => []

/-- A standardIo document that also carries a top-level `class` mapping. -/
def rawC9 : List (String × Yaml) :=
  [("type", .str "standardIo"),
   ("description", .str "d"),
   ("tests", .list [.map [("name", .str "t1"), ("stdout", .str "x")]]),
   ("class", .map [("name", .str "Widget")])]

/-- A function document declaring a zero-argument function through the
`args: []` spelling, with one test. -/
def rawC10 : List (String × Yaml) :=
  [("type", .str "function"),
   ("description", .str "f"),
   ("function", .map [("name", .str "f"), ("args", .list [])]),
   ("tests", .list [.map [("name", .str "t"), ("args", .map []),
     ("expected", .int 1)]])]

/-- The declared argument list of a compiled function IR. -/
def fnArgsOf : Compiled → List ArgSig
  | .function _ _ fn _ => fn.args
  | _ => []

/-- Renaming of the accepted signature-key spelling `arguments` to `args`
inside a function mapping (values untouched). -/
def renameArgsKey (m : List (String × Yaml)) : List (String × Yaml) :=
  m.map (fun kv => if kv.1 = "arguments" then ("args", kv.2) else kv)

/-- The same document with the `arguments` spelling of its top-level
`function` mapping renamed to `args`. -/
def renameFnArgsSpelling (raw : List (String × Yaml)) : List (String × Yaml) :=
  raw.map (fun kv => if kv.1 = "function" then
    (kv.1, match kv.2 with
      | .map fm => .map (renameArgsKey fm)
      | v => v)
    else kv)

/-- The function document with an empty `arguments: []` signature list. -/
def rawC8a : List (String × Yaml) :=
  [("type", .str "function"),
   ("description", .str "f"),
   ("function", .map [("name", .str "f"), ("arguments", .list [])]),
   ("tests", .list [.map [("name", .str "t"), ("args", .map []),
     ("expected", .int 1)]])]

/-- The identical document with the key spelled `args: []` instead. -/
def rawC8b : List (String × Yaml) :=
  [("type", .str "function"),
   ("description", .str "f"),
   ("function", .map [("name", .str "f"), ("args", .list [])]),
   ("tests", .list [.map [("name", .str "t"), ("args", .map []),
     ("expected", .int 1)]])]

theorem exbind_ok {ε α β : Type} {x : Except ε α} {f : α → Except ε β} {b : β}
    (h : x >>= f = .ok b) : ∃ a, x = .ok a ∧ f a = .ok b := by
  cases x with
  | error e => exact absurd h (by simp [Bind.bind, Except.bind])
  | ok a => exact ⟨a, rfl, by simpa [Bind.bind, Except.bind] using h⟩

theorem expure_ok {ε α : Type} {a b : α} (h : (pure a : Except ε α) = .ok b) : a = b := by
  simpa [pure, Except.pure] using h

/-- Claim C1, counterexample: on the overall-timeout path
(`subprocess.TimeoutExpired`), `run_submission` destroys the workspace but
the launched container has not been removed when the call returns — the
code contains no force-remove, and `--rm` only fires when the container
itself exits. -/
theorem run_submission_timeout_leaks_container :
    workspaceAfter (run_submission_trace (.runs .clientTimeout)) = false ∧
    containerAfter (run_submission_trace (.runs .clientTimeout)) = true := by
  decide

/-- Claim C1 (amended): on every exit path of `run_submission` the
per-submission workspace directory has been destroyed (the
`tempfile.TemporaryDirectory` context manager), and the container is gone
on every path except the overall-timeout one: exactly when the docker
client is killed by `subprocess.TimeoutExpired` does the launched container
survive the call. -/
theorem run_submission_cleanup :
    ∀ s : RunScenario,
      workspaceAfter (run_submission_trace s) = false ∧
      (containerAfter (run_submission_trace s) = true ↔
        s = .runs .clientTimeout) := by
  intro s
  cases s with
  | badLanguage => exact ⟨by decide, by decide⟩
  | generatorFails => exact ⟨by decide, by decide⟩
  | runs d => cases d with
    | completed => exact ⟨by decide, by decide⟩
    | clientTimeout => exact ⟨by decide, by decide⟩

/-- Claim C4, counterexample: the launch command built by `_run_in_docker`
for `cpus = 2` violates the isolation contract as stated — the CPU-quota
bound `≤ 1` fails, since the flag is populated from the caller's `cpus`
value with no clamping. -/
theorem docker_cmd_cpus_two_breaks_contract :
    ¬ isolationContract "/w" 128 2
      (_run_in_docker_cmd "/w" 128 2 "python:3.12-slim" "sandbox-x") := by
  intro h
  exact absurd h.2.2.2.2.2.2.2.1 (by norm_num)

/-- Claim C4 (amended): every container launch command of `_run_in_docker`
unconditionally carries no-network, read-only root, the 64 MiB
`noexec,nosuid,nodev` tmpfs, the read-only workspace mount, memory-swap
pinned equal to memory, the process cap 64, `--cap-drop=ALL` with
`no-new-privileges`, and `--rm`; the CPU quota equals the caller-supplied
`cpus` (1 by the compiled-spec default), so the full contract of spec
section 4.5 holds exactly when that value is at most 1. -/
theorem docker_cmd_isolation :
    ∀ (w : String) (m : Nat) (c : Rat) (i n : String),
      isolationContract w m c (_run_in_docker_cmd w m c i n) ↔ c ≤ 1 := by
  intro w m c i n
  constructor
  · intro h
    exact h.2.2.2.2.2.2.2.1
  · intro hc
    refine ⟨?_, ?_, ?_, ?_, ?_, ?_, ?_, hc, ?_, ?_, ?_, ?_⟩
    · simp [_run_in_docker_cmd]
    · simp [_run_in_docker_cmd]
    · exact ⟨["docker", "run", "--rm", "-i", "--name", n, "--network=none",
        "--cpus", toString c, "--memory=" ++ toString m ++ "m",
        "--memory-swap=" ++ toString m ++ "m", "--pids-limit", "64",
        "--read-only", "--cap-drop=ALL", "--security-opt", "no-new-privileges"],
        ["-v", w ++ ":/workspace:ro", "-w", "/workspace", i, "python", "test_runner.py"],
        rfl⟩
    · simp [_run_in_docker_cmd]
    · simp [_run_in_docker_cmd]
    · simp [_run_in_docker_cmd]
    · exact ⟨["docker", "run", "--rm", "-i", "--name", n, "--network=none"],
        ["--memory=" ++ toString m ++ "m", "--memory-swap=" ++ toString m ++ "m",
         "--pids-limit", "64", "--read-only", "--cap-drop=ALL", "--security-opt",
         "no-new-privileges", "--tmpfs", "/tmp:rw,noexec,nosuid,nodev,size=64m",
         "-v", w ++ ":/workspace:ro", "-w", "/workspace", i, "python", "test_runner.py"],
        rfl⟩
    · exact ⟨["docker", "run", "--rm", "-i", "--name", n, "--network=none",
        "--cpus", toString c, "--memory=" ++ toString m ++ "m",
        "--memory-swap=" ++ toString m ++ "m"],
        ["--read-only", "--cap-drop=ALL", "--security-opt", "no-new-privileges",
         "--tmpfs", "/tmp:rw,noexec,nosuid,nodev,size=64m",
         "-v", w ++ ":/workspace:ro", "-w", "/workspace", i, "python", "test_runner.py"],
        rfl⟩
    · simp [_run_in_docker_cmd]
    · exact ⟨["docker", "run", "--rm", "-i", "--name", n, "--network=none",
        "--cpus", toString c, "--memory=" ++ toString m ++ "m",
        "--memory-swap=" ++ toString m ++ "m", "--pids-limit", "64",
        "--read-only", "--cap-drop=ALL"],
        ["--tmpfs", "/tmp:rw,noexec,nosuid,nodev,size=64m",
         "-v", w ++ ":/workspace:ro", "-w", "/workspace", i, "python", "test_runner.py"],
        rfl⟩
    · simp [_run_in_docker_cmd]

theorem exthrow_ok {ε α : Type} {e : ε} {b : α} (h : (throw e : Except ε α) = .ok b) :
    False :=
  Except.noConfusion h

/-- Claim C5: the persisted compiled spec's `timeout_seconds` is the model
timeout when supplied (else the sandbox default 2), and
`overall_timeout_seconds` is exactly `timeout_seconds * 2` when the
question model supplies no explicit override, while an explicit model
override wins over the computed default. -/
theorem compile_question_overall_timeout (q : Question) (spec : SpecOut) (v : Nat)
    (h : compile_question q = .ok (spec, v)) :
    spec.timeout_seconds = q.timeout_seconds.getD 2 ∧
    spec.overall_timeout_seconds =
      (match q.overall_timeout_seconds with
       | some w => w
       | none => spec.timeout_seconds * 2) := by
  unfold compile_question at h
  obtain ⟨nc, h1, h⟩ := exbind_ok h
  split at h
  · have h2 := expure_ok h
    rw [Prod.mk.injEq] at h2
    obtain ⟨hspec, hv⟩ := h2
    subst hspec
    cases hq : q.timeout_seconds <;> cases ho : q.overall_timeout_seconds <;>
      simp [hq, ho, Option.getD]
  · exact absurd h exthrow_ok

/-- Witness for C5 at `qC5`: the default overall budget is `timeout * 2`. -/
theorem compile_question_overall_timeout_witness :
    specC5.timeout_seconds = (some (3 : Rat)).getD 2 ∧
    specC5.overall_timeout_seconds = specC5.timeout_seconds * 2 :=
  compile_question_overall_timeout qC5 specC5 1 rfl

/-- Claim C2 (amended): `compile_question` bumps `compiled_version` on
every compile — the new version is always the previous one (or 0) plus 1,
with no comparison of the compiled content against the stored one. -/
theorem compile_question_always_bumps (q : Question) (spec : SpecOut) (v : Nat)
    (h : compile_question q = .ok (spec, v)) :
    v = q.compiled_version.getD 0 + 1 := by
  unfold compile_question at h
  obtain ⟨nc, h1, h⟩ := exbind_ok h
  split at h
  · have h2 := expure_ok h
    rw [Prod.mk.injEq] at h2
    exact h2.2.symm
  · exact absurd h exthrow_ok

/-- Witness for the amended C2 at `qC2b`. -/
theorem compile_question_always_bumps_witness :
    (2 : Nat) = (some (1 : Nat)).getD 0 + 1 := by
  exact compile_question_always_bumps qC2b
    ((compile_question qC2b).toOption.get (by decide)).1 2 rfl

/-- Claim C2, counterexample: recompiling `qC2b` — whose spec-relevant
fields are identical to `qC2a`, so the compiled content is unchanged —
produces the same compiled spec but bumps the stored version from 1 to 2
instead of leaving it unchanged. -/
theorem recompile_bumps_version_cex :
    (compile_question qC2a).map Prod.fst = (compile_question qC2b).map Prod.fst ∧
    (compile_question qC2a).map Prod.snd = .ok 1 ∧
    (compile_question qC2b).map Prod.snd = .ok 2 ∧
    (compile_question qC2b).map Prod.snd ≠ .ok 1 := by
  refine ⟨rfl, rfl, rfl, ?_⟩
  intro h
  rw [show (compile_question qC2b).map Prod.snd = Except.ok 2 from rfl] at h
  exact absurd (Except.ok.inj h) (by decide)

theorem not_mem_replaceCR (l : List Char) : '\r' ∉ replaceCR l := by
  induction l with
  | nil => simp [replaceCR]
  | cons x rest ih =>
    rw [replaceCR]
    split
    · intro hmem
      rcases List.mem_cons.mp hmem with h1 | h1
      · exact absurd h1 (by decide)
      · exact ih h1
    · rename_i hx
      intro hmem
      rcases List.mem_cons.mp hmem with h1 | h1
      · exact hx h1.symm
      · exact ih h1

theorem normalize_newlines_no_cr (s : String) : '\r' ∉ (_normalize_newlines s).data := by
  unfold _normalize_newlines
  exact not_mem_replaceCR _

/-- The per-test guarantee behind claim C7: a normalized standardIo test has
a `stdout` ending in a newline, and neither field contains `\r`. -/
theorem std_io_test_props (t : Yaml) (i : Nat) (e : StdIoTest)
    (h : _std_io_test t i = .ok e) :
    e.stdout.data.getLast? = some '\n' ∧ '\r' ∉ e.stdout.data ∧ '\r' ∉ e.stdin.data := by
  unfold _std_io_test at h
  cases t with
  | map m =>
    obtain ⟨name, h1, h⟩ := exbind_ok h
    cases hst : mget m "stdout" with
    | none => rw [hst] at h; exact absurd h exthrow_ok
    | some stdout =>
      rw [hst] at h
      obtain ⟨stdin_s, h2, h⟩ := exbind_ok h
      obtain ⟨stdout_s, h3, h⟩ := exbind_ok h
      obtain ⟨u, h4, h⟩ := exbind_ok h
      have h5 := expure_ok h
      subst h5
      refine ⟨?_, ?_, ?_⟩
      · by_cases hn : endsWithNL (_normalize_newlines stdout_s)
        · simp only [hn, if_true]
          exact eq_of_beq hn
        · simp only [hn, if_false, Bool.false_eq_true]
          rw [String.data_append]
          exact List.getLast?_concat _
      · by_cases hn : endsWithNL (_normalize_newlines stdout_s)
        · simp only [hn, if_true]
          exact normalize_newlines_no_cr stdout_s
        · simp only [hn, if_false, Bool.false_eq_true]
          rw [String.data_append]
          intro hmem
          rcases List.mem_append.mp hmem with h6 | h6
          · exact normalize_newlines_no_cr stdout_s h6
          · simp at h6
      · exact normalize_newlines_no_cr stdin_s
  | null => exact absurd h exthrow_ok
  | bool b => exact absurd h exthrow_ok
  | int n => exact absurd h exthrow_ok
  | float q => exact absurd h exthrow_ok
  | str s => exact absurd h exthrow_ok
  | list xs => exact absurd h exthrow_ok

theorem std_io_loop_mem (ts : List Yaml) (i : Nat) (r : List StdIoTest)
    (h : _std_io_tests_loop ts i = .ok r) :
    ∀ e ∈ r, ∃ t j, _std_io_test t j = .ok e := by
  induction ts generalizing i r with
  | nil =>
    have h0 := expure_ok h
    subst h0
    intro e he
    exact absurd he (List.not_mem_nil e)
  | cons t ts ih =>
    unfold _std_io_tests_loop at h
    obtain ⟨e1, h1, h⟩ := exbind_ok h
    obtain ⟨rest, h2, h⟩ := exbind_ok h
    have h3 := expure_ok h
    subst h3
    intro e he
    rcases List.mem_cons.mp he with h4 | h4
    · exact ⟨t, i, h4 ▸ h1⟩
    · exact ih (i + 1) rest h2 e h4

theorem norm_std_io_props (raw : List (String × Yaml)) (tests : List StdIoTest)
    (h : _normalize_standard_io_tests raw = .ok tests) :
    ∀ e ∈ tests,
      e.stdout.data.getLast? = some '\n' ∧ '\r' ∉ e.stdout.data ∧ '\r' ∉ e.stdin.data := by
  unfold _normalize_standard_io_tests at h
  obtain ⟨tl, hA, h⟩ := exbind_ok h
  obtain ⟨norm, hB, h⟩ := exbind_ok h
  obtain ⟨u, hC, h⟩ := exbind_ok h
  have h5 := expure_ok h
  subst h5
  intro e he
  obtain ⟨t, j, ht⟩ := std_io_loop_mem tl 0 norm hB e he
  exact std_io_test_props t j e ht

/-- Claim C7: for every standardIo document accepted by
`compile_yaml_to_spec`, every test of the resulting IR has a `stdout`
ending in `\n` and free of `\r`, and a `stdin` free of `\r`. -/
theorem standard_io_stdout_normalized :
    ∀ (raw : List (String × Yaml)) (sv sv2 : Int) (d : String) (tests : List StdIoTest),
      compile_yaml_to_spec raw sv = .ok (.standardIo sv2 d tests) →
      ∀ e ∈ tests,
        e.stdout.data.getLast? = some '\n' ∧ '\r' ∉ e.stdout.data ∧ '\r' ∉ e.stdin.data := by
  intro raw sv sv2 d tests h
  unfold compile_yaml_to_spec at h
  obtain ⟨u1, h1, h⟩ := exbind_ok h
  obtain ⟨u2, h2, h⟩ := exbind_ok h
  obtain ⟨c, h3, h⟩ := exbind_ok h
  obtain ⟨u3, h4, h⟩ := exbind_ok h
  have h5 := expure_ok h
  subst h5
  unfold compile_branch at h3
  split at h3
  · obtain ⟨tests2, hA, h3⟩ := exbind_ok h3
    obtain ⟨desc, hB, h3⟩ := exbind_ok h3
    have h6 := expure_ok h3
    rw [Compiled.standardIo.injEq] at h6
    obtain ⟨hsv, hd, hts⟩ := h6
    subst hts
    exact norm_std_io_props raw tests2 hA
  · obtain ⟨fn, hA, h3⟩ := exbind_ok h3
    obtain ⟨tests2, hB, h3⟩ := exbind_ok h3
    obtain ⟨desc, hC, h3⟩ := exbind_ok h3
    exact absurd (expure_ok h3) (by simp)
  · obtain ⟨klass, hA, h3⟩ := exbind_ok h3
    obtain ⟨tests2, hB, h3⟩ := exbind_ok h3
    obtain ⟨desc, hC, h3⟩ := exbind_ok h3
    exact absurd (expure_ok h3) (by simp)
  · exact absurd h3 exthrow_ok

/-- Witness for C7 at `rawC7`: the compiled `stdout` is `"5\n"`. -/
theorem standard_io_stdout_normalized_witness :
    ("5\n" : String).data.getLast? = some '\n' ∧
    '\r' ∉ ("5\n" : String).data ∧ '\r' ∉ ("2\n3\n" : String).data :=
  standard_io_stdout_normalized rawC7 1 1 "Add two numbers"
    [⟨"case1", "2\n3\n", "5\n"⟩] rfl ⟨"case1", "2\n3\n", "5\n"⟩ (by simp)

theorem positional_args_length (ks : List String) (mapping : List (String × Yaml))
    (path : String) (r : List Yaml) (h : _positional_args ks mapping path = .ok r) :
    r.length = ks.length := by
  induction ks generalizing r with
  | nil =>
    have h0 := expure_ok h
    subst h0
    rfl
  | cons k ks ih =>
    unfold _positional_args at h
    cases hm : mget mapping k with
    | none => rw [hm] at h; exact absurd h exthrow_ok
    | some v =>
      rw [hm] at h
      obtain ⟨rest, h1, h⟩ := exbind_ok h
      have h2 := expure_ok h
      subst h2
      simp [ih rest h1]

theorem positional_args_get (ks : List String) (mapping : List (String × Yaml))
    (path : String) (r : List Yaml) (h : _positional_args ks mapping path = .ok r) :
    ∀ (j : Nat) (hj : j < ks.length) (hr : j < r.length),
      mget mapping (ks.get ⟨j, hj⟩) = some (r.get ⟨j, hr⟩) := by
  induction ks generalizing r with
  | nil =>
    intro j hj hr
    exact absurd hj (by simp)
  | cons k ks ih =>
    unfold _positional_args at h
    cases hm : mget mapping k with
    | none => rw [hm] at h; exact absurd h exthrow_ok
    | some v =>
      rw [hm] at h
      obtain ⟨rest, h1, h⟩ := exbind_ok h
      have h2 := expure_ok h
      subst h2
      intro j hj hr
      cases j with
      | zero => simpa using hm
      | succ j =>
        exact ih rest h1 j (by simpa using hj) (by simpa using hr)

theorem fn_test_args_length (arg_order : List String) (t : Yaml) (i : Nat)
    (e : FunctionTest) (h : _fn_test arg_order t i = .ok e) :
    e.args.length = arg_order.length := by
  unfold _fn_test at h
  cases t with
  | map m =>
    obtain ⟨name, h1, h⟩ := exbind_ok h
    cases hm : mget m "args" with
    | none => rw [hm] at h; exact absurd h exthrow_ok
    | some av =>
      rw [hm] at h
      cases av with
      | map mapping =>
        obtain ⟨u1, h2, h⟩ := exbind_ok h
        obtain ⟨pos_args, h3, h⟩ := exbind_ok h
        obtain ⟨outcome, h4, h⟩ := exbind_ok h
        obtain ⟨u2, h5, h⟩ := exbind_ok h
        have h6 := expure_ok h
        subst h6
        exact positional_args_length arg_order mapping _ pos_args h3
      | null => exact absurd h exthrow_ok
      | bool b => exact absurd h exthrow_ok
      | int n => exact absurd h exthrow_ok
      | float q => exact absurd h exthrow_ok
      | str s => exact absurd h exthrow_ok
      | list xs => exact absurd h exthrow_ok
  | null => exact absurd h exthrow_ok
  | bool b => exact absurd h exthrow_ok
  | int n => exact absurd h exthrow_ok
  | float q => exact absurd h exthrow_ok
  | str s => exact absurd h exthrow_ok
  | list xs => exact absurd h exthrow_ok

theorem fn_tests_loop_mem (arg_order : List String) (ts : List Yaml) (i : Nat)
    (r : List FunctionTest) (h : _fn_tests_loop arg_order ts i = .ok r) :
    ∀ e ∈ r, ∃ t j, _fn_test arg_order t j = .ok e := by
  induction ts generalizing i r with
  | nil =>
    have h0 := expure_ok h
    subst h0
    intro e he
    exact absurd he (List.not_mem_nil e)
  | cons t ts ih =>
    unfold _fn_tests_loop at h
    obtain ⟨e1, h1, h⟩ := exbind_ok h
    obtain ⟨rest, h2, h⟩ := exbind_ok h
    have h3 := expure_ok h
    subst h3
    intro e he
    rcases List.mem_cons.mp he with h4 | h4
    · exact ⟨t, i, h4 ▸ h1⟩
    · exact ih (i + 1) rest h2 e h4

theorem norm_fn_tests_args_length (raw : List (String × Yaml)) (fn : FunctionSig)
    (tests : List FunctionTest) (h : _normalize_function_tests raw fn = .ok tests) :
    ∀ e ∈ tests, e.args.length = fn.args.length := by
  unfold _normalize_function_tests at h
  obtain ⟨tl, hA, h⟩ := exbind_ok h
  obtain ⟨norm, hB, h⟩ := exbind_ok h
  obtain ⟨u, hC, h⟩ := exbind_ok h
  have h5 := expure_ok h
  subst h5
  intro e he
  obtain ⟨t, j, ht⟩ := fn_tests_loop_mem _ tl 0 norm hB e he
  have := fn_test_args_length _ t j e ht
  simpa using this

theorem steps_loop_args_length (klass : ClassSig) (created : List String)
    (path : String) (ls : List Yaml) (k : Nat) (r : List CallStep)
    (h : _steps_loop klass created path ls k = .ok r) :
    ∀ st ∈ r, ∃ ms, _get_method_sig klass st.method = .ok ms ∧
      st.args.length = ms.args.length := by
  induction ls generalizing k r with
  | nil =>
    have h0 := expure_ok h
    subst h0
    intro st hst
    exact absurd hst (List.not_mem_nil st)
  | cons a rest ih =>
    simp only [_steps_loop] at h
    split at h
    · split at h
      · obtain ⟨var, h1, h⟩ := exbind_ok h
        split at h
        · obtain ⟨method, h2, h⟩ := exbind_ok h
          split at h
          · split at h
            · obtain ⟨method_sig, h3, h⟩ := exbind_ok h
              obtain ⟨u1, h4, h⟩ := exbind_ok h
              obtain ⟨pos_args, h5, h⟩ := exbind_ok h
              obtain ⟨outcome, h6, h⟩ := exbind_ok h
              obtain ⟨u2, h7, h⟩ := exbind_ok h
              obtain ⟨tail, h8, h⟩ := exbind_ok h
              have h9 := expure_ok h
              subst h9
              intro st hst
              rcases List.mem_cons.mp hst with h10 | h10
              · subst h10
                refine ⟨method_sig, h3, ?_⟩
                have := positional_args_length _ _ _ _ h5
                simpa using this
              · exact ih (k + 1) tail h8 st h10
            · exact absurd h exthrow_ok
          · exact absurd h exthrow_ok
        · exact absurd h exthrow_ok
      · exact absurd h exthrow_ok
    · exact absurd h exthrow_ok

theorem oop_test_steps_args (klass : ClassSig) (t : Yaml) (i : Nat) (e : OopTest)
    (h : _oop_test klass t i = .ok e) :
    ∀ st ∈ e.steps, ∃ ms, _get_method_sig klass st.method = .ok ms ∧
      st.args.length = ms.args.length := by
  simp only [_oop_test] at h
  split at h
  · obtain ⟨name, h1, h⟩ := exbind_ok h
    split at h
    · split at h
      · obtain ⟨p, h2, h⟩ := exbind_ok h
        obtain ⟨setup, created_vars⟩ := p
        obtain ⟨steps, h3, h⟩ := exbind_ok h
        obtain ⟨u, h4, h⟩ := exbind_ok h
        have h5 := expure_ok h
        subst h5
        intro st hst
        exact steps_loop_args_length klass created_vars _ _ 0 steps h3 st hst
      · exact absurd h exthrow_ok
    · exact absurd h exthrow_ok
  · exact absurd h exthrow_ok

theorem oop_tests_loop_mem (klass : ClassSig) (ts : List Yaml) (i : Nat)
    (r : List OopTest) (h : _oop_tests_loop klass ts i = .ok r) :
    ∀ e ∈ r, ∃ t j, _oop_test klass t j = .ok e := by
  induction ts generalizing i r with
  | nil =>
    have h0 := expure_ok h
    subst h0
    intro e he
    exact absurd he (List.not_mem_nil e)
  | cons t ts ih =>
    unfold _oop_tests_loop at h
    obtain ⟨e1, h1, h⟩ := exbind_ok h
    obtain ⟨rest, h2, h⟩ := exbind_ok h
    have h3 := expure_ok h
    subst h3
    intro e he
    rcases List.mem_cons.mp he with h4 | h4
    · exact ⟨t, i, h4 ▸ h1⟩
    · exact ih (i + 1) rest h2 e h4

theorem norm_oop_tests_args (raw : List (String × Yaml)) (klass : ClassSig)
    (tests : List OopTest) (h : _normalize_oop_tests raw klass = .ok tests) :
    ∀ e ∈ tests, ∀ st ∈ e.steps, ∃ ms, _get_method_sig klass st.method = .ok ms ∧
      st.args.length = ms.args.length := by
  unfold _normalize_oop_tests at h
  obtain ⟨tl, hA, h⟩ := exbind_ok h
  obtain ⟨norm, hB, h⟩ := exbind_ok h
  obtain ⟨u, hC, h⟩ := exbind_ok h
  have h5 := expure_ok h
  subst h5
  intro e he
  obtain ⟨t, j, ht⟩ := oop_tests_loop_mem klass tl 0 norm hB e he
  exact oop_test_steps_args klass t j e ht

theorem mem_dedupKeep (a : String) (l : List String) : a ∈ dedupKeep l ↔ a ∈ l := by
  induction l with
  | nil => simp [dedupKeep]
  | cons b rest ih =>
    simp only [dedupKeep, List.mem_cons, List.mem_filter]
    constructor
    · rintro (h | ⟨h1, _⟩)
      · exact Or.inl h
      · exact Or.inr (ih.mp h1)
    · rintro (h | h)
      · exact Or.inl h
      · by_cases hab : a = b
        · exact Or.inl hab
        · exact Or.inr ⟨ih.mpr h, by simpa using hab⟩

theorem mem_insertStr (a b : String) (l : List String) :
    a ∈ insertStr b l ↔ a = b ∨ a ∈ l := by
  induction l with
  | nil => simp [insertStr]
  | cons c rest ih =>
    simp only [insertStr]
    split
    · simp
    · simp only [List.mem_cons, ih]
      tauto

theorem mem_sortStrings (a : String) (l : List String) :
    a ∈ sortStrings l ↔ a ∈ l := by
  induction l with
  | nil => simp [sortStrings]
  | cons b rest ih =>
    simp only [sortStrings, mem_insertStr, ih, List.mem_cons]

theorem substring_of_self (s : String) : substring_of s s :=
  ⟨[], [], by simp⟩

theorem substring_of_append_left (pre : String) {k big : String}
    (h : substring_of k big) : substring_of k (pre ++ big) := by
  obtain ⟨s, t, hs⟩ := h
  exact ⟨pre.data ++ s, t, by rw [String.data_append, ← hs]; simp⟩

theorem substring_of_append_right (post : String) {k big : String}
    (h : substring_of k big) : substring_of k (big ++ post) := by
  obtain ⟨s, t, hs⟩ := h
  exact ⟨s, t ++ post.data, by rw [String.data_append, ← hs]; simp⟩

theorem substring_of_joinSep (sep : String) (l : List String) (k : String)
    (hk : k ∈ l) : substring_of k (joinSep sep l) := by
  induction l with
  | nil => exact absurd hk (List.not_mem_nil k)
  | cons s rest ih =>
    cases rest with
    | nil =>
      rcases List.mem_cons.mp hk with h | h
      · subst h; exact substring_of_self k
      · exact absurd h (List.not_mem_nil k)
    | cons s2 rest2 =>
      rcases List.mem_cons.mp hk with h | h
      · subst h
        show substring_of k (k ++ sep ++ joinSep sep (s2 :: rest2))
        exact substring_of_append_right _ (substring_of_append_right _ (substring_of_self k))
      · show substring_of k (s ++ sep ++ joinSep sep (s2 :: rest2))
        exact substring_of_append_left _ (ih h)

theorem substring_of_fmtNames (l : List String) (k : String) (hk : k ∈ l) :
    substring_of k (fmtNames l) := by
  unfold fmtNames
  exact substring_of_append_right _ (substring_of_append_left _
    (substring_of_joinSep ", " l k hk))

/-- The error behavior of `_check_exact_keys`: whenever a name is missing
from or unexpected in the test's args mapping, the check raises a
`SpecError` at the args path whose message contains that name. -/
theorem check_exact_keys_names (mapping : List (String × Yaml)) (expected : List String)
    (path : String) (k : String)
    (hk : (k ∈ expected ∧ k ∉ mapping.map Prod.fst) ∨
          (k ∈ mapping.map Prod.fst ∧ k ∉ expected)) :
    ∃ msg, _check_exact_keys mapping expected path = .error ⟨msg, some path⟩ ∧
      substring_of k msg := by
  rcases hk with ⟨hin, hout⟩ | ⟨hin, hout⟩
  · have hmem : k ∈ sortStrings (dedupKeep (expected.filter
        (fun x => !(mapping.map Prod.fst).contains x))) := by
      rw [mem_sortStrings, mem_dedupKeep, List.mem_filter]
      exact ⟨hin, by simpa using hout⟩
    have hne : ¬ (sortStrings (dedupKeep (expected.filter
        (fun x => !(mapping.map Prod.fst).contains x)))).isEmpty = true := by
      intro hemp
      rw [List.isEmpty_iff] at hemp
      rw [hemp] at hmem
      exact List.not_mem_nil k hmem
    simp only [_check_exact_keys]
    rw [if_neg (by rw [Bool.and_eq_true]; rintro ⟨hmis, _⟩; exact hne hmis)]
    refine ⟨_, rfl, ?_⟩
    have h1 : substring_of k ("missing: " ++ fmtNames (sortStrings (dedupKeep
        (expected.filter (fun x => !(mapping.map Prod.fst).contains x))))) :=
      substring_of_append_left _ (substring_of_fmtNames _ k hmem)
    rw [if_neg hne]
    by_cases hext : (sortStrings (dedupKeep ((mapping.map Prod.fst).filter
        (fun x => !expected.contains x)))).isEmpty = true
    · rw [if_pos hext, List.append_nil]
      simpa [joinSep] using h1
    · rw [if_neg hext]
      simp only [List.cons_append, List.nil_append, joinSep]
      exact substring_of_append_right _ (substring_of_append_right _ h1)
  · have hmem : k ∈ sortStrings (dedupKeep ((mapping.map Prod.fst).filter
        (fun x => !expected.contains x))) := by
      rw [mem_sortStrings, mem_dedupKeep, List.mem_filter]
      exact ⟨hin, by simpa using hout⟩
    have hne : ¬ (sortStrings (dedupKeep ((mapping.map Prod.fst).filter
        (fun x => !expected.contains x)))).isEmpty = true := by
      intro hemp
      rw [List.isEmpty_iff] at hemp
      rw [hemp] at hmem
      exact List.not_mem_nil k hmem
    simp only [_check_exact_keys]
    rw [if_neg (by rw [Bool.and_eq_true]; rintro ⟨_, hext⟩; exact hne hext)]
    refine ⟨_, rfl, ?_⟩
    have h1 : substring_of k ("unexpected: " ++ fmtNames (sortStrings (dedupKeep
        ((mapping.map Prod.fst).filter (fun x => !expected.contains x))))) :=
      substring_of_append_left _ (substring_of_fmtNames _ k hmem)
    rw [if_neg hne]
    by_cases hmis : (sortStrings (dedupKeep (expected.filter
        (fun x => !(mapping.map Prod.fst).contains x)))).isEmpty = true
    · rw [if_pos hmis, List.nil_append]
      simpa [joinSep] using h1
    · rw [if_neg hmis]
      simp only [List.cons_append, List.nil_append, joinSep]
      exact substring_of_append_left _ h1

theorem compile_fn_tests_args_length (raw : List (String × Yaml)) (sv sv2 : Int)
    (d : String) (fn : FunctionSig) (tests : List FunctionTest)
    (h : compile_yaml_to_spec raw sv = .ok (.function sv2 d fn tests)) :
    ∀ t ∈ tests, t.args.length = fn.args.length := by
  unfold compile_yaml_to_spec at h
  obtain ⟨u1, h1, h⟩ := exbind_ok h
  obtain ⟨u2, h2, h⟩ := exbind_ok h
  obtain ⟨c, h3, h⟩ := exbind_ok h
  obtain ⟨u3, h4, h⟩ := exbind_ok h
  have h5 := expure_ok h
  subst h5
  unfold compile_branch at h3
  split at h3
  · obtain ⟨tests2, hA, h3⟩ := exbind_ok h3
    obtain ⟨desc, hB, h3⟩ := exbind_ok h3
    exact absurd (expure_ok h3) (by simp)
  · obtain ⟨fn2, hA, h3⟩ := exbind_ok h3
    obtain ⟨tests2, hB, h3⟩ := exbind_ok h3
    obtain ⟨desc, hC, h3⟩ := exbind_ok h3
    have h6 := expure_ok h3
    rw [Compiled.function.injEq] at h6
    obtain ⟨hsv, hd, hfn, hts⟩ := h6
    subst hfn
    subst hts
    exact norm_fn_tests_args_length raw fn2 tests2 hB
  · obtain ⟨klass, hA, h3⟩ := exbind_ok h3
    obtain ⟨tests2, hB, h3⟩ := exbind_ok h3
    obtain ⟨desc, hC, h3⟩ := exbind_ok h3
    exact absurd (expure_ok h3) (by simp)
  · exact absurd h3 exthrow_ok

theorem compile_oop_steps_args_length (raw : List (String × Yaml)) (sv sv2 : Int)
    (d : String) (cls : ClassSig) (tests : List OopTest)
    (h : compile_yaml_to_spec raw sv = .ok (.oop sv2 d cls tests)) :
    ∀ t ∈ tests, ∀ st ∈ t.steps,
      ∃ ms, _get_method_sig cls st.method = .ok ms ∧
        st.args.length = ms.args.length := by
  unfold compile_yaml_to_spec at h
  obtain ⟨u1, h1, h⟩ := exbind_ok h
  obtain ⟨u2, h2, h⟩ := exbind_ok h
  obtain ⟨c, h3, h⟩ := exbind_ok h
  obtain ⟨u3, h4, h⟩ := exbind_ok h
  have h5 := expure_ok h
  subst h5
  unfold compile_branch at h3
  split at h3
  · obtain ⟨tests2, hA, h3⟩ := exbind_ok h3
    obtain ⟨desc, hB, h3⟩ := exbind_ok h3
    exact absurd (expure_ok h3) (by simp)
  · obtain ⟨fn2, hA, h3⟩ := exbind_ok h3
    obtain ⟨tests2, hB, h3⟩ := exbind_ok h3
    obtain ⟨desc, hC, h3⟩ := exbind_ok h3
    exact absurd (expure_ok h3) (by simp)
  · obtain ⟨klass, hA, h3⟩ := exbind_ok h3
    obtain ⟨tests2, hB, h3⟩ := exbind_ok h3
    obtain ⟨desc, hC, h3⟩ := exbind_ok h3
    have h6 := expure_ok h3
    rw [Compiled.oop.injEq] at h6
    obtain ⟨hsv, hd, hcls, hts⟩ := h6
    subst hcls
    subst hts
    exact norm_oop_tests_args raw klass tests2 hB
  · exact absurd h3 exthrow_ok

/-- Claim C6: (1) every test of an accepted function spec carries a
positional args array whose length equals the declared signature length;
(2) every call step of an accepted oop spec carries a positional args array
whose length equals its method signature length; (3) the positional array is
built in declared order — entry `j` is the args-mapping value of the `j`-th
declared name; (4) a test args mapping with a missing or unexpected
argument name is rejected by `_check_exact_keys` with a `SpecError` at the
args path whose message names it. -/
theorem positional_args_exact :
    (∀ (raw : List (String × Yaml)) (sv sv2 : Int) (d : String) (fn : FunctionSig)
       (tests : List FunctionTest),
       compile_yaml_to_spec raw sv = .ok (.function sv2 d fn tests) →
       ∀ t ∈ tests, t.args.length = fn.args.length) ∧
    (∀ (raw : List (String × Yaml)) (sv sv2 : Int) (d : String) (cls : ClassSig)
       (tests : List OopTest),
       compile_yaml_to_spec raw sv = .ok (.oop sv2 d cls tests) →
       ∀ t ∈ tests, ∀ st ∈ t.steps,
         ∃ ms, _get_method_sig cls st.method = .ok ms ∧
           st.args.length = ms.args.length) ∧
    (∀ (ks : List String) (mapping : List (String × Yaml)) (path : String)
       (r : List Yaml),
       _positional_args ks mapping path = .ok r →
       r.length = ks.length ∧
       ∀ (j : Nat) (hj : j < ks.length) (hr : j < r.length),
         mget mapping (ks.get ⟨j, hj⟩) = some (r.get ⟨j, hr⟩)) ∧
    (∀ (mapping : List (String × Yaml)) (expected : List String) (path k : String),
       ((k ∈ expected ∧ k ∉ mapping.map Prod.fst) ∨
        (k ∈ mapping.map Prod.fst ∧ k ∉ expected)) →
       ∃ msg, _check_exact_keys mapping expected path = .error ⟨msg, some path⟩ ∧
         substring_of k msg) := by
  refine ⟨compile_fn_tests_args_length, compile_oop_steps_args_length, ?_, check_exact_keys_names⟩
  intro ks mapping path r h
  exact ⟨positional_args_length ks mapping path r h, positional_args_get ks mapping path r h⟩

/-- Witness for C6 at `rawC6f`, `rawC6o`, and concrete argument data. -/
theorem positional_args_exact_witness :
    ([Yaml.int 0].length = [ArgSig.mk "n" "integer"].length) ∧
    (∃ ms, _get_method_sig (ClassSig.mk "Counter" [MethodSig.mk "get" [] (some "any")])
        "get" = .ok ms ∧ ([] : List Yaml).length = ms.args.length) ∧
    (([Yaml.int 0] : List Yaml).length = (["n"] : List String).length ∧
      ∀ (j : Nat) (hj : j < (["n"] : List String).length)
        (hr : j < ([Yaml.int 0] : List Yaml).length),
        mget [("n", Yaml.int 0)] ((["n"] : List String).get ⟨j, hj⟩) =
          some (([Yaml.int 0] : List Yaml).get ⟨j, hr⟩)) ∧
    (∃ msg, _check_exact_keys [] ["n"] "tests[0].args" =
        .error ⟨msg, some "tests[0].args"⟩ ∧ substring_of "n" msg) :=
  ⟨positional_args_exact.1 rawC6f 1 1 "factorial"
      ⟨"factorial", [⟨"n", "integer"⟩], some "any"⟩
      [⟨"base", [.int 0], .expected (.int 1)⟩] rfl
      ⟨"base", [.int 0], .expected (.int 1)⟩ (by simp),
   positional_args_exact.2.1 rawC6o 1 1 "Counter"
      ⟨"Counter", [⟨"get", [], some "any"⟩]⟩
      [⟨"t1", [⟨"Counter", "c"⟩], [⟨"c", "get", [], .expected (.int 0)⟩]⟩] rfl
      ⟨"t1", [⟨"Counter", "c"⟩], [⟨"c", "get", [], .expected (.int 0)⟩]⟩ (by simp)
      ⟨"c", "get", [], .expected (.int 0)⟩ (by simp),
   positional_args_exact.2.2.1 ["n"] [("n", Yaml.int 0)] "tests[0].args" [Yaml.int 0] rfl,
   positional_args_exact.2.2.2 [] ["n"] "tests[0].args" "n" (Or.inl ⟨by simp, by simp⟩)⟩

theorem as_identifier_ok (v : Yaml) (p : String) (s : String)
    (h : _as_identifier v p = .ok s) : v = .str s ∧ _is_ident s = true := by
  unfold _as_identifier at h
  obtain ⟨s2, h1, h⟩ := exbind_ok h
  cases v with
  | str s3 =>
    have h2 := expure_ok (show (pure s3 : SpecM String) = .ok s2 from h1)
    subst h2
    split at h
    · rename_i hid
      have h3 := expure_ok h
      subst h3
      exact ⟨rfl, hid⟩
    · exact absurd h exthrow_ok
  | null => exact absurd h1 exthrow_ok
  | bool b => exact absurd h1 exthrow_ok
  | int n => exact absurd h1 exthrow_ok
  | float q => exact absurd h1 exthrow_ok
  | list xs => exact absurd h1 exthrow_ok
  | map m => exact absurd h1 exthrow_ok

theorem methods_loop_facts (ml : List Yaml) (i : Nat) (r : List MethodSig)
    (h : _methods_loop ml i = .ok r) :
    r.length = ml.length ∧
    ∀ (j : Nat) (hj : j < ml.length) (hr : j < r.length) (mm : List (String × Yaml)),
      ml.get ⟨j, hj⟩ = .map mm →
      (∀ nm, getY mm "name" = .str nm →
        (r.get ⟨j, hr⟩).name = if nm = "init" then "__init__" else nm) ∧
      ((mget mm "arguments" = none ∨ mget mm "arguments" = some (.list [])) →
        mget mm "args" = none → (r.get ⟨j, hr⟩).args = []) := by
  induction ml generalizing i r with
  | nil =>
    have h0 := expure_ok h
    subst h0
    refine ⟨rfl, ?_⟩
    intro j hj
    exact absurd hj (by simp)
  | cons m rest ih =>
    simp only [_methods_loop] at h
    cases m with
    | map am =>
      obtain ⟨mname_raw, h1, h⟩ := exbind_ok h
      cases hpy : pyOr (pyOr (mget am "arguments") (mget am "args")) (some (.list [])) with
      | none => rw [hpy] at h; exact absurd h exthrow_ok
      | some av =>
        rw [hpy] at h
        cases av with
        | list margl =>
          obtain ⟨norm_margs, h2, h⟩ := exbind_ok h
          obtain ⟨returns, h3, h⟩ := exbind_ok h
          obtain ⟨u1, h4, h⟩ := exbind_ok h
          obtain ⟨tail, h5, h⟩ := exbind_ok h
          have h6 := expure_ok h
          subst h6
          obtain ⟨ihlen, ihfacts⟩ := ih (i + 1) tail h5
          refine ⟨by simp [ihlen], ?_⟩
          intro j hj hr mm hmm
          cases j with
          | zero =>
            have ham : am = mm := by
              simp only [List.get] at hmm
              injection hmm
            subst ham
            constructor
            · intro nm hnm
              have h7 := (as_identifier_ok _ _ _ h1).1
              rw [hnm] at h7
              have h8 : nm = mname_raw := by injection h7
              subst h8
              simp only [List.get]
            · intro hargs1 hargs2
              have hml : margl = [] := by
                rcases hargs1 with ha | ha <;>
                · rw [ha, hargs2] at hpy
                  simp only [pyOr, truthy] at hpy
                  injection (Option.some.inj hpy) with hlst
                  exact hlst.symm
              subst hml
              have h9 := expure_ok h2
              subst h9
              simp only [List.get]
          | succ j =>
            exact ihfacts j (by simpa using hj) (by simpa using hr) mm (by simpa using hmm)
        | null => exact absurd h exthrow_ok
        | bool b => exact absurd h exthrow_ok
        | int n => exact absurd h exthrow_ok
        | float q => exact absurd h exthrow_ok
        | str s => exact absurd h exthrow_ok
        | map mm2 => exact absurd h exthrow_ok
    | null => exact absurd h exthrow_ok
    | bool b => exact absurd h exthrow_ok
    | int n => exact absurd h exthrow_ok
    | float q => exact absurd h exthrow_ok
    | str s => exact absurd h exthrow_ok
    | list xs => exact absurd h exthrow_ok

/-- Claim C3 (amended): `_normalize_class_signature` rewrites the logical
constructor alias at compile/normalization time — a declared method whose
raw name is `init` is stored in the IR under the name `__init__` (and any
other name is stored unchanged), matching the repository's own
`test_oop_example`. -/
theorem class_init_rewritten :
    ∀ (raw : List (String × Yaml)) (klass : ClassSig),
      _normalize_class_signature raw = .ok klass →
      ∀ (c : List (String × Yaml)) (ml : List Yaml),
        getY raw "class" = .map c →
        mget c "methods" = some (.list ml) →
        klass.methods.length = ml.length ∧
        ∀ (j : Nat) (hj : j < ml.length) (hr : j < klass.methods.length)
          (mm : List (String × Yaml)) (nm : String),
          ml.get ⟨j, hj⟩ = .map mm →
          getY mm "name" = .str nm →
          (klass.methods.get ⟨j, hr⟩).name = if nm = "init" then "__init__" else nm := by
  intro raw klass h c ml hc hml
  unfold _normalize_class_signature at h
  rw [hc] at h
  obtain ⟨name, h1, h⟩ := exbind_ok h
  rw [hml] at h
  have h' : (if ml.isEmpty = true then
      (throw ⟨"class.methods must be a non-empty list", some "class.methods"⟩ : SpecM ClassSig)
    else do
      let norm_methods ← _methods_loop ml 0
      _reject_unknown_keys c ["name", "methods"] "class"
      pure ⟨name, norm_methods⟩) = .ok klass := h
  clear h
  by_cases hemp : ml.isEmpty = true
  · rw [if_pos hemp] at h'
    exact absurd h' exthrow_ok
  · rw [if_neg hemp] at h'
    obtain ⟨norm_methods, h2, h⟩ := exbind_ok h'
    obtain ⟨u1, h3, h⟩ := exbind_ok h
    have h4 := expure_ok h
    subst h4
    obtain ⟨hlen, hfacts⟩ := methods_loop_facts ml 0 norm_methods h2
    refine ⟨hlen, ?_⟩
    intro j hj hr mm nm hmm hnm
    exact ((hfacts j hj hr mm hmm).1) nm hnm

/-- Claim C3, counterexample: compiling a spec that declares a method named
`init` stores `__init__` in the IR — the compiled method list is
`["__init__", "total"]` and does not contain `"init"`, so the rewrite
happens during spec compilation, not at harness-generation time. -/
theorem init_rewritten_at_compile_cex :
    (compile_yaml_to_spec rawC3 1).map compiledMethodNames = .ok ["__init__", "total"] ∧
    (compile_yaml_to_spec rawC3 1).map
      (fun ir => decide ("init" ∈ compiledMethodNames ir)) = .ok false :=
  ⟨rfl, rfl⟩

/-- Witness for the amended C3 at `rawC3`: the first declared method, whose
raw name is `init`, is compiled to `__init__`. -/
theorem class_init_rewritten_witness :
    ((ClassSig.mk "ShoppingCart"
      [MethodSig.mk "__init__" [] (some "any"), MethodSig.mk "total" [] (some "any")]
      ).methods.get ⟨0, by decide⟩).name =
      (if ("init" : String) = "init" then "__init__" else "init") :=
  (class_init_rewritten rawC3
    ⟨"ShoppingCart", [⟨"__init__", [], some "any"⟩, ⟨"total", [], some "any"⟩]⟩ rfl
    [("name", .str "ShoppingCart"),
     ("methods", .list [.map [("name", .str "init")], .map [("name", .str "total")]])]
    [.map [("name", .str "init")], .map [("name", .str "total")]] rfl rfl).2
    0 (by decide) (by decide) [("name", .str "init")] "init" rfl rfl

theorem reject_top_level_ok_mem (raw : List (String × Yaml)) (allowed : List String)
    (u : Unit) (h : _reject_unknown_top_level_keys raw allowed = .ok u) :
    ∀ k ∈ raw.map Prod.fst, k ∈ allowed := by
  induction raw with
  | nil =>
    intro k hk
    exact absurd hk (by simp)
  | cons kv rest ih =>
    unfold _reject_unknown_top_level_keys at h
    split at h
    · rename_i hmem
      intro k hk
      rcases List.mem_cons.mp hk with h1 | h1
      · exact h1 ▸ hmem
      · exact ih h k h1
    · exact absurd h exthrow_ok

/-- Claim C9 (amended): every document accepted by `compile_yaml_to_spec`
has all of its top-level keys inside the fixed whitelist
`{type, description, tests, function, class}`; a key outside it is rejected
(the first offender is named).  The whitelist does not depend on the
declared `type`, so a shape key of another type is not rejected. -/
theorem top_level_keys_closed :
    ∀ (raw : List (String × Yaml)) (sv : Int) (ir : Compiled),
      compile_yaml_to_spec raw sv = .ok ir →
      ∀ k ∈ raw.map Prod.fst, k ∈ topLevelAllowed := by
  intro raw sv ir h
  unfold compile_yaml_to_spec at h
  obtain ⟨u1, h1, h⟩ := exbind_ok h
  obtain ⟨u2, h2, h⟩ := exbind_ok h
  obtain ⟨c, h3, h⟩ := exbind_ok h
  obtain ⟨u3, h4, h⟩ := exbind_ok h
  exact reject_top_level_ok_mem raw topLevelAllowed u3 h4

/-- Claim C9, counterexample: the whitelist of
`_reject_unknown_top_level_keys` is the same union for every `type`, so a
standardIo document carrying a top-level `class` mapping is accepted, not
rejected. -/
theorem standard_io_with_class_key_accepted_cex :
    (compile_yaml_to_spec rawC9 1).toOption.isSome = true ∧
    "class" ∈ rawC9.map Prod.fst :=
  ⟨rfl, by simp [rawC9]⟩

/-- Witness for the amended C9 at `rawC7`: its `tests` key is in the
whitelist. -/
theorem top_level_keys_closed_witness :
    ("tests" : String) ∈ topLevelAllowed :=
  top_level_keys_closed rawC7 1
    (.standardIo 1 "Add two numbers" [⟨"case1", "2\n3\n", "5\n"⟩]) rfl
    "tests" (by simp [rawC7])

/-- Claim C10 (amended): the spelling `arguments: []` (with no `args` key)
falls through Python `or` to `None` and `_normalize_function_signature`
raises `SpecError` at `function.arguments` — but the spelling `args: []` is
a list and is accepted, so a zero-argument function CAN be declared through
the `args` spelling; an oop method with an empty or omitted argument list
is always accepted and normalized to an empty args array. -/
theorem empty_arguments_asymmetry :
    (∀ (raw fm : List (String × Yaml)) (nm : String),
       getY raw "function" = .map fm →
       _as_identifier (getY fm "name") "function.name" = .ok nm →
       mget fm "arguments" = some (.list []) →
       mget fm "args" = none →
       _normalize_function_signature raw =
         .error ⟨"function.arguments must be a list", some "function.arguments"⟩) ∧
    (∀ (ml : List Yaml) (i : Nat) (r : List MethodSig) (j : Nat)
       (hj : j < ml.length) (hr : j < r.length) (mm : List (String × Yaml)),
       _methods_loop ml i = .ok r →
       ml.get ⟨j, hj⟩ = .map mm →
       (mget mm "arguments" = none ∨ mget mm "arguments" = some (.list [])) →
       mget mm "args" = none →
       (r.get ⟨j, hr⟩).args = []) := by
  constructor
  · intro raw fm nm hfm hname hargs1 hargs2
    simp only [_normalize_function_signature, _fn_sig_of_map, hfm, hname, hargs1, hargs2,
      pyOr, truthy]
    simp [Bind.bind, Except.bind]
    rfl
  · intro ml i r j hj hr mm h hmm hargs1 hargs2
    exact ((methods_loop_facts ml i r h).2 j hj hr mm hmm).2 hargs1 hargs2

/-- Claim C10, counterexample: a zero-argument function declared as
`args: []` is accepted by `compile_yaml_to_spec` (no `SpecError`), with an
empty declared argument list — only the `arguments: []` spelling errors. -/
theorem empty_args_spelling_accepted_cex :
    (compile_yaml_to_spec rawC10 1).toOption.isSome = true ∧
    (compile_yaml_to_spec rawC10 1).map fnArgsOf = .ok [] :=
  ⟨rfl, rfl⟩

/-- Witness for the amended C10: `arguments: []` errors at
`function.arguments`, while a method with no argument keys compiles to an
empty args array. -/
theorem empty_arguments_asymmetry_witness :
    (_normalize_function_signature
      [("function", .map [("name", .str "f"), ("arguments", .list [])])] =
      .error ⟨"function.arguments must be a list", some "function.arguments"⟩) ∧
    (([MethodSig.mk "m" [] (some "any")].get ⟨0, by decide⟩).args = []) :=
  ⟨empty_arguments_asymmetry.1 [("function", .map [("name", .str "f"),
      ("arguments", .list [])])]
      [("name", .str "f"), ("arguments", .list [])] "f" rfl rfl rfl rfl,
   empty_arguments_asymmetry.2 [.map [("name", .str "m")]] 0
      [⟨"m", [], some "any"⟩] 0 (by decide) (by decide) [("name", .str "m")]
      rfl rfl (Or.inl rfl) rfl⟩

theorem mget_cons (k2 : String) (v2 : Yaml) (rest : List (String × Yaml)) (k : String) :
    mget ((k2, v2) :: rest) k = if k2 = k then some v2 else mget rest k := rfl

theorem renameArgsKey_cons (k2 : String) (v2 : Yaml) (rest : List (String × Yaml)) :
    renameArgsKey ((k2, v2) :: rest) =
      (if k2 = "arguments" then ("args", v2) else (k2, v2)) :: renameArgsKey rest := rfl

theorem renameFnArgsSpelling_cons (k2 : String) (v2 : Yaml) (rest : List (String × Yaml)) :
    renameFnArgsSpelling ((k2, v2) :: rest) =
      (if k2 = "function" then
        (k2, match v2 with | .map fm => .map (renameArgsKey fm) | v => v)
       else (k2, v2)) :: renameFnArgsSpelling rest := rfl

theorem rak_mget_ne (fm : List (String × Yaml)) (k : String)
    (h1 : k ≠ "arguments") (h2 : k ≠ "args") :
    mget (renameArgsKey fm) k = mget fm k := by
  induction fm with
  | nil => rfl
  | cons kv rest ih =>
    obtain ⟨k2, v2⟩ := kv
    rw [renameArgsKey_cons]
    by_cases hk2 : k2 = "arguments"
    · subst hk2
      rw [if_pos rfl, mget_cons, mget_cons]
      rw [if_neg (fun hh => h2 hh.symm), if_neg (fun hh => h1 hh.symm)]
      exact ih
    · rw [if_neg hk2, mget_cons, mget_cons]
      by_cases hkk : k2 = k
      · rw [if_pos hkk, if_pos hkk]
      · rw [if_neg hkk, if_neg hkk]
        exact ih

theorem rak_arguments_none (fm : List (String × Yaml)) :
    mget (renameArgsKey fm) "arguments" = none := by
  induction fm with
  | nil => rfl
  | cons kv rest ih =>
    obtain ⟨k2, v2⟩ := kv
    rw [renameArgsKey_cons]
    by_cases hk2 : k2 = "arguments"
    · subst hk2
      rw [if_pos rfl, mget_cons, if_neg (by decide)]
      exact ih
    · rw [if_neg hk2, mget_cons, if_neg hk2]
      exact ih

theorem rak_args_eq (fm : List (String × Yaml))
    (hnone : mget fm "args" = none) :
    mget (renameArgsKey fm) "args" = mget fm "arguments" := by
  induction fm with
  | nil => rfl
  | cons kv rest ih =>
    obtain ⟨k2, v2⟩ := kv
    rw [renameArgsKey_cons]
    by_cases hk2 : k2 = "arguments"
    · subst hk2
      rw [if_pos rfl, mget_cons, if_pos rfl, mget_cons, if_pos rfl]
    · have hk2b : k2 ≠ "args" := by
        intro hkk
        rw [mget_cons, if_pos hkk] at hnone
        exact Option.noConfusion hnone
      have hrest : mget rest "args" = none := by
        rw [mget_cons, if_neg hk2b] at hnone
        exact hnone
      rw [if_neg hk2, mget_cons, if_neg hk2b, mget_cons, if_neg hk2]
      exact ih hrest

theorem rak_reject_eq (fm : List (String × Yaml)) (allowed : List String)
    (path : String) (ha1 : "arguments" ∈ allowed) (ha2 : "args" ∈ allowed) :
    _reject_unknown_keys (renameArgsKey fm) allowed path =
      _reject_unknown_keys fm allowed path := by
  induction fm with
  | nil => rfl
  | cons kv rest ih =>
    obtain ⟨k2, v2⟩ := kv
    rw [renameArgsKey_cons]
    by_cases hk2 : k2 = "arguments"
    · subst hk2
      rw [if_pos rfl]
      show (if "args" ∈ allowed then _reject_unknown_keys (renameArgsKey rest) allowed path
        else throw ⟨"Unknown key " ++ "args", some (path ++ "." ++ "args")⟩) = _
      rw [if_pos ha2]
      show _ = (if "arguments" ∈ allowed then _reject_unknown_keys rest allowed path
        else throw ⟨"Unknown key " ++ "arguments", some (path ++ "." ++ "arguments")⟩)
      rw [if_pos ha1]
      exact ih
    · rw [if_neg hk2]
      show (if k2 ∈ allowed then _reject_unknown_keys (renameArgsKey rest) allowed path
        else throw ⟨"Unknown key " ++ k2, some (path ++ "." ++ k2)⟩) =
        (if k2 ∈ allowed then _reject_unknown_keys rest allowed path
        else throw ⟨"Unknown key " ++ k2, some (path ++ "." ++ k2)⟩)
      by_cases hmem : k2 ∈ allowed
      · rw [if_pos hmem, if_pos hmem]
        exact ih
      · rw [if_neg hmem, if_neg hmem]

theorem rfs_mget_ne (raw : List (String × Yaml)) (k : String) (h : k ≠ "function") :
    mget (renameFnArgsSpelling raw) k = mget raw k := by
  induction raw with
  | nil => rfl
  | cons kv rest ih =>
    obtain ⟨k2, v2⟩ := kv
    rw [renameFnArgsSpelling_cons]
    by_cases hk2 : k2 = "function"
    · subst hk2
      rw [if_pos rfl, mget_cons, mget_cons]
      rw [if_neg (fun hh => h hh.symm), if_neg (fun hh => h hh.symm)]
      exact ih
    · rw [if_neg hk2, mget_cons, mget_cons]
      by_cases hkk : k2 = k
      · rw [if_pos hkk, if_pos hkk]
      · rw [if_neg hkk, if_neg hkk]
        exact ih

theorem rfs_fn (raw : List (String × Yaml)) (fm : List (String × Yaml))
    (h : mget raw "function" = some (.map fm)) :
    mget (renameFnArgsSpelling raw) "function" = some (.map (renameArgsKey fm)) := by
  induction raw with
  | nil => exact absurd h (by simp [mget])
  | cons kv rest ih =>
    obtain ⟨k2, v2⟩ := kv
    rw [renameFnArgsSpelling_cons]
    by_cases hk2 : k2 = "function"
    · subst hk2
      rw [mget_cons, if_pos rfl] at h
      have hv2 : v2 = .map fm := by injection h
      subst hv2
      rw [if_pos rfl, mget_cons, if_pos rfl]
    · rw [mget_cons, if_neg hk2] at h
      rw [if_neg hk2, mget_cons, if_neg hk2]
      exact ih h

theorem rfs_keys (raw : List (String × Yaml)) :
    (renameFnArgsSpelling raw).map Prod.fst = raw.map Prod.fst := by
  induction raw with
  | nil => rfl
  | cons kv rest ih =>
    obtain ⟨k2, v2⟩ := kv
    rw [renameFnArgsSpelling_cons]
    by_cases hk2 : k2 = "function"
    · subst hk2
      rw [if_pos rfl, List.map_cons, List.map_cons, ih]
    · rw [if_neg hk2, List.map_cons, List.map_cons, ih]

theorem reject_top_keys_eq (raw1 raw2 : List (String × Yaml)) (allowed : List String)
    (h : raw1.map Prod.fst = raw2.map Prod.fst) :
    _reject_unknown_top_level_keys raw1 allowed =
      _reject_unknown_top_level_keys raw2 allowed := by
  induction raw1 generalizing raw2 with
  | nil =>
    cases raw2 with
    | nil => rfl
    | cons kv rest => exact absurd h (by simp)
  | cons kv rest ih =>
    cases raw2 with
    | nil => exact absurd h (by simp)
    | cons kv2 rest2 =>
      obtain ⟨k1, v1⟩ := kv
      obtain ⟨k2, v2⟩ := kv2
      simp only [List.map_cons, List.cons.injEq] at h
      obtain ⟨hk, hrest⟩ := h
      subst hk
      show (if k1 ∈ allowed then _reject_unknown_top_level_keys rest allowed
        else throw ⟨"Unknown top-level key " ++ k1, some k1⟩) =
        (if k1 ∈ allowed then _reject_unknown_top_level_keys rest2 allowed
        else throw ⟨"Unknown top-level key " ++ k1, some k1⟩)
      by_cases hmem : k1 ∈ allowed
      · rw [if_pos hmem, if_pos hmem]
        exact ih rest2 hrest
      · rw [if_neg hmem, if_neg hmem]

/-- Claim C8 (amended): compilation is a pure function of the parsed
document (identical input yields identical IR; whitespace and mapping key
order are erased by the external YAML parser before `compile_yaml_to_spec`
runs), and renaming the accepted signature-key spelling `arguments` to
`args` leaves the compiled output unchanged provided the declared argument
value is truthy (a non-empty list) — with an empty list the two spellings
diverge. -/
theorem args_spelling_invariance :
    ∀ (raw fm : List (String × Yaml)) (v : Yaml) (sv : Int),
      mget raw "function" = some (.map fm) →
      mget fm "arguments" = some v →
      truthy v = true →
      mget fm "args" = none →
      compile_yaml_to_spec (renameFnArgsSpelling raw) sv =
        compile_yaml_to_spec raw sv := by
  intro raw fm v sv hfm hargs htr hnone
  have eTy : getY (renameFnArgsSpelling raw) "type" = getY raw "type" := by
    unfold getY
    rw [rfs_mget_ne raw "type" (by decide)]
  have eDesc : getY (renameFnArgsSpelling raw) "description" = getY raw "description" := by
    unfold getY
    rw [rfs_mget_ne raw "description" (by decide)]
  have eTests : _require_tests_list (renameFnArgsSpelling raw) = _require_tests_list raw := by
    unfold _require_tests_list getY
    rw [rfs_mget_ne raw "tests" (by decide)]
  have eClass : getY (renameFnArgsSpelling raw) "class" = getY raw "class" := by
    unfold getY
    rw [rfs_mget_ne raw "class" (by decide)]
  have eReqT : _require_type (renameFnArgsSpelling raw) = _require_type raw := by
    unfold _require_type
    rw [rfs_mget_ne raw "type" (by decide)]
  have eReqD : _require_desc (renameFnArgsSpelling raw) = _require_desc raw := by
    unfold _require_desc
    rw [eDesc]
  have eSIO : _normalize_standard_io_tests (renameFnArgsSpelling raw) =
      _normalize_standard_io_tests raw := by
    unfold _normalize_standard_io_tests
    rw [eTests]
  have hfn1 : getY raw "function" = .map fm := by
    unfold getY
    rw [hfm]
    rfl
  have hfn2 : getY (renameFnArgsSpelling raw) "function" = .map (renameArgsKey fm) := by
    unfold getY
    rw [rfs_fn raw fm hfm]
    rfl
  have eName : getY (renameArgsKey fm) "name" = getY fm "name" := by
    unfold getY
    rw [rak_mget_ne fm "name" (by decide) (by decide)]
  have ePy : pyOr (mget (renameArgsKey fm) "arguments") (mget (renameArgsKey fm) "args") =
      pyOr (mget fm "arguments") (mget fm "args") := by
    rw [rak_arguments_none, rak_args_eq fm hnone, hargs, hnone]
    show pyOr none (some v) = pyOr (some v) none
    simp [pyOr, htr]
  have eRet : _returns_field (renameArgsKey fm) = _returns_field fm := by
    funext p
    unfold _returns_field
    rw [rak_mget_ne fm "returns" (by decide) (by decide)]
  have eRj : _reject_unknown_keys (renameArgsKey fm)
      ["name", "arguments", "args", "returns"] "function" =
      _reject_unknown_keys fm ["name", "arguments", "args", "returns"] "function" :=
    rak_reject_eq fm _ _ (by simp) (by simp)
  have eSigBody : _fn_sig_of_map (renameArgsKey fm) = _fn_sig_of_map fm := by
    unfold _fn_sig_of_map
    rw [eName, ePy, eRet, eRj]
  have eSig : _normalize_function_signature (renameFnArgsSpelling raw) =
      _normalize_function_signature raw := by
    unfold _normalize_function_signature
    rw [hfn1, hfn2]
    exact eSigBody
  have eFT : _normalize_function_tests (renameFnArgsSpelling raw) =
      _normalize_function_tests raw := by
    funext fn
    unfold _normalize_function_tests
    rw [eTests]
  have eCS : _normalize_class_signature (renameFnArgsSpelling raw) =
      _normalize_class_signature raw := by
    unfold _normalize_class_signature
    rw [eClass]
  have eOT : _normalize_oop_tests (renameFnArgsSpelling raw) =
      _normalize_oop_tests raw := by
    funext k
    unfold _normalize_oop_tests
    rw [eTests]
  have eRej : _reject_unknown_top_level_keys (renameFnArgsSpelling raw) topLevelAllowed =
      _reject_unknown_top_level_keys raw topLevelAllowed :=
    reject_top_keys_eq _ _ _ (rfs_keys raw)
  have eBr : compile_branch (renameFnArgsSpelling raw) sv = compile_branch raw sv := by
    unfold compile_branch
    rw [eTy, eSIO, eDesc, eSig, eFT, eCS, eOT]
  unfold compile_yaml_to_spec
  rw [eReqT, eReqD, eBr, eRej]

/-- Claim C8, counterexample: two documents that differ only in the
`arguments`-vs-`args` key spelling (the second IS the spelling-rename of
the first) compile differently when the declared list is empty: the
`arguments: []` spelling is rejected while `args: []` is accepted, because
the empty list is falsy under Python `or`. -/
theorem args_spelling_empty_diverges_cex :
    rawC8b = renameFnArgsSpelling rawC8a ∧
    (compile_yaml_to_spec rawC8a 1).toOption.isSome = false ∧
    (compile_yaml_to_spec rawC8b 1).toOption.isSome = true ∧
    compile_yaml_to_spec rawC8a 1 ≠ compile_yaml_to_spec rawC8b 1 := by
  refine ⟨rfl, rfl, rfl, ?_⟩
  intro h
  have h2 := congrArg (fun x : SpecM Compiled => x.toOption.isSome) h
  simp only [] at h2
  rw [show (compile_yaml_to_spec rawC8a 1).toOption.isSome = false from rfl,
    show (compile_yaml_to_spec rawC8b 1).toOption.isSome = true from rfl] at h2
  exact Bool.noConfusion h2

/-- Witness for the amended C8 at `rawC6f` (non-empty argument list): the
spelling rename leaves the compiled output unchanged. -/
theorem args_spelling_invariance_witness :
    compile_yaml_to_spec (renameFnArgsSpelling rawC6f) 1 =
      compile_yaml_to_spec rawC6f 1 :=
  args_spelling_invariance rawC6f
    [("name", .str "factorial"),
     ("arguments", .list [.map [("name", .str "n"), ("type", .str "integer")]])]
    (.list [.map [("name", .str "n"), ("type", .str "integer")]]) 1
    rfl rfl rfl rfl
